import Mathlib

/-
Verification of the reconciliation core of the CKD BOM comparison tool.

The Python modules `utils.py`, `file_reader.py`, `config.py` and
`data_processor.py` are shallowly embedded below:
  * spreadsheet cells become the inductive type `CellValue`
    (Python's `None`, `float('nan')`, numbers and strings);
  * quantities (Python floats) are modelled as exact rationals `ℚ`;
  * Python dicts keyed by part id are modelled by list filtering, which
    reproduces insertion-ordered dict semantics;
  * Python `set` values whose iteration order is implementation-defined
    are modelled by a dedicated enumeration parameter `σ` constrained to
    be a permutation (used for the determinism property).
Each definition carries the name of the Python function it embeds.
-/

set_option maxRecDepth 10000

namespace CKD

/-! ### Basic string helpers (Python `str.strip`, `str.lstrip`, `str.lower`) -/

/-- The ASCII apostrophe character, written by code point. -/
def apos : Char := Char.ofNat 39

/-- The ASCII backtick character, written by code point. -/
def btick : Char := Char.ofNat 96

/-- Python `str.strip()` on a character list (whitespace on both ends). -/
def pyStripList (l : List Char) : List Char :=
  ((l.dropWhile Char.isWhitespace).reverse.dropWhile Char.isWhitespace).reverse

/-- Python `str.strip()`. -/
def pyStrip (s : String) : String := String.mk (pyStripList s.toList)

/-- Python `str.lower()` (ASCII case folding; the inputs in scope are
ASCII or Chinese, which `lower` leaves unchanged). -/
def pyLower (s : String) : String := String.mk (s.toList.map Char.toLower)

/-- Characters removed by the `re.sub` invisible-character class in
`utils.py`: U+0000-001F, U+007F-009F, U+200B-200D, U+FEFF, U+00A0. -/
def isInvisibleChar (c : Char) : Bool :=
  c.toNat ≤ 0x1f ∨ (0x7f ≤ c.toNat ∧ c.toNat ≤ 0x9f) ∨
    (0x200b ≤ c.toNat ∧ c.toNat ≤ 0x200d) ∨ c.toNat = 0xfeff ∨ c.toNat = 0xa0

/-- Python `str.endswith('.0')`. -/
def endsWithDotZero (l : List Char) : Bool :=
  match l.reverse with
  | c0 :: c1 :: _ => c0 = '0' ∧ c1 = '.'
  | _ => false

/-- Python `sep.join(parts)`. -/
def pyJoin (sep : String) : List String → String
  | [] => ""
  | [x] => x
  | x :: xs => x ++ sep ++ pyJoin sep xs

/-- First-seen-order deduplication (the `seen` set idiom used throughout
the Python code, and the key order of a Python dict built by
`setdefault`). -/
def dedupFirst (l : List String) : List String :=
  l.foldl (fun acc x => if x ∈ acc then acc else acc ++ [x]) []

/-- `needle` is a leading run of `hay`. -/
def listLeads : List Char → List Char → Bool
  | [], _ => true
  | _ :: _, [] => false
  | a :: as, b :: bs => a == b && listLeads as bs

/-- Python's `in` on strings: `needle` occurs contiguously in `hay`. -/
def strContains (hay needle : List Char) : Bool :=
  match hay with
  | [] => needle.isEmpty
  | _ :: rest => listLeads needle hay || strContains rest needle

/-! ### Cell values

A spreadsheet cell as seen by the parsers: Python `None`, `float('nan')`,
a number (`int` or finite `float`, both modelled as an exact rational) or
a string.  The claims' inputs only use `None`, integers, simple decimals
and strings, for which the embedding of `str(value)` below agrees with
Python. -/

inductive CellValue where
  | none
  | nan
  | num (q : ℚ)
  | str (s : String)
deriving DecidableEq

/-- Decimal rendering of a rational: Python `str` of an `int` or of a
`float` whose shortest repr is a plain decimal (`10.5` → `"10.5"`). -/
def pyNumRepr (q : ℚ) : String :=
  if q.den = 1 then toString q.num
  else
    match (List.range 41).find? (fun k => (q * (10 : ℚ) ^ k).den == 1) with
    | some k =>
        let a := (q * (10 : ℚ) ^ k).num.natAbs
        let ds := Nat.toDigits 10 a
        let ds := List.replicate (k + 1 - ds.length) '0' ++ ds
        (if q.num < 0 then "-" else "") ++
          String.mk (ds.take (ds.length - k)) ++ "." ++ String.mk (ds.drop (ds.length - k))
    | Option.none => toString q.num ++ "/" ++ toString q.den

/-- Python `str(cell)`. -/
def pyStrCell : CellValue → String
  | .none => "None"
  | .nan => "nan"
  | .num q => pyNumRepr q
  | .str s => s

/-- Python truthiness of a cell (`if cell else ''`). -/
def cellTruthy : CellValue → Bool
  | .none => false
  | .nan => true
  | .num q => q != 0
  | .str s => s != ""

/-! ### `utils.clean_part_number` -/

/-- The shared tail of `clean_part_number`: strip, drop leading
apostrophes and backticks, delete all remaining apostrophes, delete
invisible characters, strip again. -/
def cleanCore (s : String) : String :=
  let l := pyStripList s.toList
  let l := l.dropWhile (· == apos)
  let l := l.dropWhile (· == btick)
  let l := l.filter (· != apos)
  let l := l.filter (fun c => !isInvisibleChar c)
  String.mk (pyStripList l)

/-- `utils.clean_part_number` on a string value (the only value kind the
reconciliation engine re-cleans). -/
def clean_part_number (s : String) : String :=
  let l := s.toList
  cleanCore (String.mk (if endsWithDotZero l then l.take (l.length - 2) else l))

/-- `utils.clean_part_number` on an arbitrary cell: `None` and NaN clean
to `""`; an integral float drops its fractional part before the shared
cleaning tail. -/
def clean_part_number_cell : CellValue → String
  | .none => ""
  | .nan => ""
  | .num q => cleanCore (pyNumRepr q)
  | .str s => clean_part_number s

/-- `utils.normalize_box_number` (no apostrophe handling, `.0`-suffix
check applied to the stripped string). -/
def normalize_box_number : CellValue → String
  | .none => ""
  | .nan => ""
  | .num q => String.mk (pyStripList ((pyNumRepr q).toList.filter (fun c => !isInvisibleChar c)))
  | .str s =>
      let t := pyStripList s.toList
      let t := if endsWithDotZero t then t.take (t.length - 2) else t
      String.mk (pyStripList (t.filter (fun c => !isInvisibleChar c)))

/-! ### `utils.extract_substitute_ids` -/

/-- Maximal runs of ASCII digits in a character list (regex `\d+`),
left to right, via an accumulator for the current run. -/
def digitRunsGo (cur : List Char) : List Char → List String
  | [] => if cur.isEmpty then [] else [String.mk cur.reverse]
  | c :: rest =>
      if c.isDigit then digitRunsGo (c :: cur) rest
      else if cur.isEmpty then digitRunsGo [] rest
      else String.mk cur.reverse :: digitRunsGo [] rest

def digitRuns (l : List Char) : List String := digitRunsGo [] l

/-- `utils.extract_substitute_ids`: digit runs of length ≥ 3,
deduplicated preserving first-seen order. -/
def extract_substitute_ids (v : CellValue) : List String :=
  match v with
  | .none => []
  | _ =>
      let text := pyStrip (pyStrCell v)
      if text = "" ∨ pyLower text ∈ ["nan", "none", "无", "-", "", "null"] then []
      else dedupFirst ((digitRuns text.toList).filter (fun m => 3 ≤ m.length))

/-! ### `utils.safe_eval_expression`

Two embedded pieces of Python: the builtin `float(str)` parser (tried
first) and the namespace-restricted `eval` reached only for strings that
pass the arithmetic allow-list.  `float` values are exact rationals, so
`float("0.1")` is modelled as `1/10`; the non-finite spellings
(`inf`, `infinity`) and powers with non-integer exponents have no
rational value and are modelled as failures, which no claim exercises. -/

/-- One underscore-separated digit group, CPython numeric-literal style:
`digit (digit | _ digit)*`.  Returns the digits (underscores removed) and
the unconsumed rest.  Must be entered at a digit (see `digitsU`). -/
def digitsUGo : List Char → List Char × List Char
  | [] => ([], [])
  | [c] => if c.isDigit then ([c], []) else ([], [c])
  | c :: d :: rest =>
      if c.isDigit then
        let (ds, r) := digitsUGo (d :: rest)
        (c :: ds, r)
      else if c = Char.ofNat 95 ∧ d.isDigit then
        let (ds, r) := digitsUGo rest
        (d :: ds, r)
      else ([], c :: d :: rest)

/-- Greedy digit group that must start with a digit. -/
def digitsU (l : List Char) : List Char × List Char :=
  match l with
  | c :: _ => if c.isDigit then digitsUGo l else ([], l)
  | [] => ([], [])

/-- Numeric value of a list of ASCII digits. -/
def digitsToNat (l : List Char) : ℕ :=
  l.foldl (fun a c => a * 10 + (c.toNat - 48)) 0

/-- Python `float(str)` on finite decimal input:
`[ws] [sign] (digits [. digits?] | . digits) [(e|E) [sign] digits] [ws]`,
with CPython's underscore rule inside each digit group. -/
def pyFloat (s : String) : Option ℚ :=
  let l := pyStripList s.toList
  let (sgn, l) :=
    match l with
    | c :: rest =>
        if c = '+' then ((1 : ℚ), rest)
        else if c = '-' then ((-1 : ℚ), rest) else ((1 : ℚ), c :: rest)
    | [] => ((1 : ℚ), [])
  let (ip, l1) := digitsU l
  let (fp, l2) :=
    match l1 with
    | c :: rest => if c = '.' then digitsU rest else ([], l1)
    | [] => ([], l1)
  if ip.isEmpty ∧ fp.isEmpty then Option.none
  else
    let mant : ℚ := ((digitsToNat (ip ++ fp) : ℚ)) / (10 : ℚ) ^ fp.length
    match l2 with
    | [] => some (sgn * mant)
    | c :: rest =>
        if c = 'e' ∨ c = 'E' then
          let (esgn, r1) :=
            match rest with
            | c2 :: r =>
                if c2 = '+' then ((1 : ℤ), r)
                else if c2 = '-' then ((-1 : ℤ), r) else ((1 : ℤ), c2 :: r)
            | [] => ((1 : ℤ), [])
          let (ed, r2) := digitsU r1
          if ed.isEmpty ∨ ¬ r2.isEmpty then Option.none
          else some (sgn * mant * (10 : ℚ) ^ (esgn * (digitsToNat ed : ℤ)))
        else Option.none

/-! ### Tokenizer and parser for the restricted `eval`

Inputs reaching `eval` satisfy the allow-list
`^[\d\s+\-*/.()]+$`, so the token set is: numbers, `+ - * / ( )` and the
two-character operators `**` and `//`.  Number literals follow the
CPython tokenizer on this character set: `digits+ (. digits*)? | . digits+`,
and a multi-digit integer literal may not start with `0`. -/

inductive Tok where
  | num (q : ℚ)
  | add | sub | mul | div | fdiv | pow | lpar | rpar
deriving DecidableEq

/-- Tokenize an allow-listed expression.  `fuel` bounds recursion; it is
always called with more fuel than characters, so exhaustion is
unreachable. -/
def tokenizeGo : ℕ → List Char → Option (List Tok)
  | 0, _ => Option.none
  | _ + 1, [] => some []
  | f + 1, c :: rest =>
      if c.isWhitespace then tokenizeGo f rest
      else if c = '+' then (tokenizeGo f rest).map (Tok.add :: ·)
      else if c = '-' then (tokenizeGo f rest).map (Tok.sub :: ·)
      else if c = '(' then (tokenizeGo f rest).map (Tok.lpar :: ·)
      else if c = ')' then (tokenizeGo f rest).map (Tok.rpar :: ·)
      else if c = '*' then
        match rest with
        | c2 :: rest2 =>
            if c2 = '*' then (tokenizeGo f rest2).map (Tok.pow :: ·)
            else (tokenizeGo f rest).map (Tok.mul :: ·)
        | [] => some [Tok.mul]
      else if c = '/' then
        match rest with
        | c2 :: rest2 =>
            if c2 = '/' then (tokenizeGo f rest2).map (Tok.fdiv :: ·)
            else (tokenizeGo f rest).map (Tok.div :: ·)
        | [] => some [Tok.div]
      else if c.isDigit ∨ c = '.' then
        let ip := (c :: rest).takeWhile Char.isDigit
        let l1 := (c :: rest).dropWhile Char.isDigit
        let (fp, l2, dotted) :=
          match l1 with
          | d :: r => if d = '.' then (r.takeWhile Char.isDigit, r.dropWhile Char.isDigit, true)
                      else (([] : List Char), l1, false)
          | [] => (([] : List Char), l1, false)
        if ip.isEmpty ∧ fp.isEmpty then Option.none
        else if ¬ dotted ∧ 2 ≤ ip.length ∧ ip.headD ' ' = '0' then Option.none
        else
          (tokenizeGo f l2).map
            (Tok.num ((digitsToNat (ip ++ fp) : ℚ) / (10 : ℚ) ^ fp.length) :: ·)
      else Option.none

def tokenize (l : List Char) : Option (List Tok) := tokenizeGo (l.length + 1) l

/-- Python semantics of the arithmetic operators on rationals.
True division and floor division by zero are `ZeroDivisionError`;
a power with a non-integer exponent has no rational value and is
modelled as failure. -/
def applyPow (a e : ℚ) : Option ℚ :=
  if e.den = 1 then
    if a = 0 ∧ e.num < 0 then Option.none else some (a ^ e.num)
  else Option.none

mutual

/-- `expr := term (('+'|'-') term)*` -/
def parseExpr : ℕ → List Tok → Option (ℚ × List Tok)
  | 0, _ => Option.none
  | f + 1, ts => do
      let (v, r) ← parseTerm f ts
      parseExprLoop f v r

def parseExprLoop : ℕ → ℚ → List Tok → Option (ℚ × List Tok)
  | 0, _, _ => Option.none
  | f + 1, acc, ts =>
      match ts with
      | Tok.add :: rest => do
          let (v, r) ← parseTerm f rest
          parseExprLoop f (acc + v) r
      | Tok.sub :: rest => do
          let (v, r) ← parseTerm f rest
          parseExprLoop f (acc - v) r
      | _ => some (acc, ts)

/-- `term := unary (('*'|'/'|'//') unary)*` -/
def parseTerm : ℕ → List Tok → Option (ℚ × List Tok)
  | 0, _ => Option.none
  | f + 1, ts => do
      let (v, r) ← parseUnary f ts
      parseTermLoop f v r

def parseTermLoop : ℕ → ℚ → List Tok → Option (ℚ × List Tok)
  | 0, _, _ => Option.none
  | f + 1, acc, ts =>
      match ts with
      | Tok.mul :: rest => do
          let (v, r) ← parseUnary f rest
          parseTermLoop f (acc * v) r
      | Tok.div :: rest => do
          let (v, r) ← parseUnary f rest
          if v = 0 then Option.none else parseTermLoop f (acc / v) r
      | Tok.fdiv :: rest => do
          let (v, r) ← parseUnary f rest
          if v = 0 then Option.none else parseTermLoop f ((⌊acc / v⌋ : ℤ) : ℚ) r
      | _ => some (acc, ts)

/-- `unary := ('+'|'-') unary | power` (Python `u_expr`). -/
def parseUnary : ℕ → List Tok → Option (ℚ × List Tok)
  | 0, _ => Option.none
  | f + 1, ts =>
      match ts with
      | Tok.add :: rest => parseUnary f rest
      | Tok.sub :: rest => do
          let (v, r) ← parseUnary f rest
          some (-v, r)
      | _ => parsePower f ts

/-- `power := primary ['**' unary]` (right-binding, tighter than a
leading unary minus, unary allowed in the exponent — Python `power`). -/
def parsePower : ℕ → List Tok → Option (ℚ × List Tok)
  | 0, _ => Option.none
  | f + 1, ts => do
      let (b, r) ← parsePrimary f ts
      match r with
      | Tok.pow :: rest => do
          let (e, r2) ← parseUnary f rest
          let v ← applyPow b e
          some (v, r2)
      | _ => some (b, r)

/-- `primary := number | '(' expr ')'` -/
def parsePrimary : ℕ → List Tok → Option (ℚ × List Tok)
  | 0, _ => Option.none
  | f + 1, ts =>
      match ts with
      | Tok.num q :: rest => some (q, rest)
      | Tok.lpar :: rest => do
          let (v, r) ← parseExpr f rest
          match r with
          | Tok.rpar :: r2 => some (v, r2)
          | _ => Option.none
      | _ => Option.none

end

/-- The restricted `eval(expr_str, {"__builtins__": {}}, {})` together
with the surrounding `try/except`: any syntax or arithmetic error is
`Option.none`. -/
def evalPy (s : String) : Option ℚ := do
  let ts ← tokenize s.toList
  let (v, r) ← parseExpr (6 * ts.length + 12) ts
  if r.isEmpty then some v else Option.none

/-- The character allow-list `^[\d\s+\-*/.()]+$` of
`safe_eval_expression`. -/
def allowListed (s : String) : Bool :=
  s != "" && s.toList.all (fun c =>
    c.isDigit || c.isWhitespace || c = '+' || c = '-' || c = '*' || c = '/' ||
      c = '.' || c = '(' || c = ')')

/-- The strip and leading-apostrophe removal `safe_eval_expression`
applies to a textual input before all checks. -/
def prepExpr (s : String) : String :=
  String.mk ((pyStripList s.toList).dropWhile (· == apos))

/-- `utils.safe_eval_expression`: numbers pass through (NaN fails),
strings are stripped, null-tokens rejected, then `float()` is attempted,
and only if it fails is the allow-list checked and the restricted `eval`
run. -/
def safe_eval_expression : CellValue → Option ℚ
  | .none => Option.none
  | .nan => Option.none
  | .num q => some q
  | .str s =>
      let e := prepExpr s
      if e = "" ∨ pyLower e ∈ ["nan", "none", "", "-"] then Option.none
      else
        match pyFloat e with
        | some q => some q
        | Option.none => if allowListed e then evalPy e else Option.none

/-! ### `utils.format_number` and `utils.merge_box_numbers` -/

/-- Round to the nearest integer, ties to even (the rounding of
Python's `format(v, '.2f')`, stated on the exact rational). -/
def roundHalfEven (x : ℚ) : ℤ :=
  let f := ⌊x⌋
  let r := x - (f : ℚ)
  if r < 1 / 2 then f
  else if 1 / 2 < r then f + 1
  else if f % 2 = 0 then f else f + 1

/-- `utils.format_number`: integers unadorned, other values with two
decimals. -/
def format_number (q : ℚ) : String :=
  if q.den = 1 then toString q.num
  else
    let n := roundHalfEven (q * 100)
    let a := n.natAbs
    (if n < 0 then "-" else "") ++ toString (a / 100) ++ "." ++
      (if a % 100 < 10 then "0" else "") ++ toString (a % 100)

/-- The sort key `(len(x), x)` of `merge_box_numbers`, as a relation. -/
def boxKeyLe (a b : String) : Prop :=
  a.length < b.length ∨ (a.length = b.length ∧ a ≤ b)

instance : DecidableRel boxKeyLe := fun a b => by
  unfold boxKeyLe; infer_instance

/-- Python `sorted` on distinct strings. -/
def pySortStr (l : List String) : List String :=
  List.insertionSort (fun a b => a ≤ b) l

/-- `utils.merge_box_numbers` with set-iteration order `σ`:
deduplicate, sort by `(len, lexical)`, join with `", "`; `"-"` when
nothing remains. -/
def merge_box_numbers (σ : List String → List String) (box_list : List String) : String :=
  if box_list = [] then "-"
  else
    let uniq := List.insertionSort boxKeyLe (σ (dedupFirst (box_list.filter (· != ""))))
    if uniq = [] then "-" else pyJoin ", " uniq

/-! ### `utils.chinese_to_arabic` (and `config.CHINESE_NUM_MAP`) -/

/-- `config.CHINESE_NUM_MAP`. -/
def chineseNumMap (c : Char) : Option ℕ :=
  if c = '零' then some 0
  else if c = '一' then some 1
  else if c = '二' then some 2
  else if c = '三' then some 3
  else if c = '四' then some 4
  else if c = '五' then some 5
  else if c = '六' then some 6
  else if c = '七' then some 7
  else if c = '八' then some 8
  else if c = '九' then some 9
  else if c = '十' then some 10
  else if c = '百' then some 100
  else if c = '千' then some 1000
  else if c = '壹' then some 1
  else if c = '贰' then some 2
  else if c = '叁' then some 3
  else if c = '肆' then some 4
  else if c = '伍' then some 5
  else if c = '陆' then some 6
  else if c = '柒' then some 7
  else if c = '捌' then some 8
  else if c = '玖' then some 9
  else if c = '拾' then some 10
  else Option.none

/-- The digit/multiplier accumulator loop of `chinese_to_arabic`.
Note the source only special-cases the multipliers 10 and 100; any other
map value — including 千 = 1000 — falls into the `temp := num` branch. -/
def chineseAccum : List Char → ℕ → ℕ → Option ℕ
  | [], res, temp => if 0 < res + temp then some (res + temp) else Option.none
  | c :: rest, res, temp =>
      match chineseNumMap c with
      | Option.none => Option.none
      | some n =>
          if n = 10 then chineseAccum rest (res + (if temp = 0 then 1 else temp) * 10) 0
          else if n = 100 then chineseAccum rest (res + (if temp = 0 then 1 else temp) * 100) 0
          else chineseAccum rest res n

/-- The 十-prefix special case followed by the accumulator. -/
def chineseTail (t : List Char) : Option ℕ :=
  match t with
  | c :: r :: [] =>
      if c = '十' then
        match chineseNumMap r with
        | some m => some (10 + m)
        | Option.none => chineseAccum t 0 0
      else chineseAccum t 0 0
  | _ => chineseAccum t 0 0

/-- `utils.chinese_to_arabic`. -/
def chinese_to_arabic (s : String) : Option ℕ :=
  if s = "" then Option.none
  else
    let t := pyStripList s.toList
    match t with
    | [c] =>
        match chineseNumMap c with
        | some n => some n
        | Option.none => chineseTail t
    | _ => chineseTail t

/-! ### `utils.extract_box_number_from_text` with
`config.BOX_MARKER_PATTERNS`

The four regular expressions are embedded as direct scanners.  Each
pattern is deterministic (its character classes are disjoint), so greedy
matching without backtracking is exact; `re.search` semantics is the
first start position at which the pattern matches. -/

/-- Skip `\s*`. -/
def wsStar (l : List Char) : List Char := l.dropWhile Char.isWhitespace

/-- Match `第?\s*(\d+)\s*号?\s*箱` anchored at the head. -/
def matchBoxDigitsAt (l : List Char) : Option String :=
  let l := if l.headD ' ' = '第' then l.tail else l
  let l := wsStar l
  let ds := l.takeWhile Char.isDigit
  if ds.isEmpty then Option.none
  else
    let l := wsStar (l.dropWhile Char.isDigit)
    let l := if l.headD ' ' = '号' then l.tail else l
    let l := wsStar l
    if l.headD ' ' = '箱' then some (String.mk ds) else Option.none

/-- The character class `[一二三四五六七八九十百]`. -/
def isChineseBoxChar (c : Char) : Bool :=
  c = '一' ∨ c = '二' ∨ c = '三' ∨ c = '四' ∨ c = '五' ∨ c = '六' ∨ c = '七' ∨
    c = '八' ∨ c = '九' ∨ c = '十' ∨ c = '百'

/-- Match `第?\s*([一二三四五六七八九十百]+)\s*号?\s*箱` anchored at the
head. -/
def matchBoxChineseAt (l : List Char) : Option String :=
  let l := if l.headD ' ' = '第' then l.tail else l
  let l := wsStar l
  let ds := l.takeWhile isChineseBoxChar
  if ds.isEmpty then Option.none
  else
    let l := wsStar (l.dropWhile isChineseBoxChar)
    let l := if l.headD ' ' = '号' then l.tail else l
    let l := wsStar l
    if l.headD ' ' = '箱' then some (String.mk ds) else Option.none

/-- Match `\s*[#№]?\s*(\d+)` (the tail shared by the Box and Carton
patterns) anchored at the head. -/
def matchHashDigits (l : List Char) : Option String :=
  let l := wsStar l
  let l := if l.headD ' ' = '#' ∨ l.headD ' ' = '№' then l.tail else l
  let l := wsStar l
  let ds := l.takeWhile Char.isDigit
  if ds.isEmpty then Option.none else some (String.mk ds)

/-- Match `[Bb]ox\s*[#№]?\s*(\d+)` anchored at the head. -/
def matchBoxEnAt (l : List Char) : Option String :=
  match l with
  | b :: o :: x :: rest =>
      if (b = 'B' ∨ b = 'b') ∧ o = 'o' ∧ x = 'x' then matchHashDigits rest
      else Option.none
  | _ => Option.none

/-- Match `[Cc]arton\s*[#№]?\s*(\d+)` anchored at the head. -/
def matchCartonAt (l : List Char) : Option String :=
  match l with
  | c :: a :: r :: t :: o :: n :: rest =>
      if (c = 'C' ∨ c = 'c') ∧ a = 'a' ∧ r = 'r' ∧ t = 't' ∧ o = 'o' ∧ n = 'n' then
        matchHashDigits rest
      else Option.none
  | _ => Option.none

/-- `re.search`: try the anchored matcher at each start position, left
to right. -/
def searchPat (m : List Char → Option String) (l : List Char) : Option String :=
  match l with
  | [] => m []
  | _ :: rest =>
      match m l with
      | some r => some r
      | Option.none => searchPat m rest

/-- The digit-group patterns 3 and 4 of `BOX_MARKER_PATTERNS` (their
groups are digits, so they never take the Chinese-numeral branch). -/
def boxEnOrCarton (t : List Char) : Option String :=
  match searchPat matchBoxEnAt t with
  | some d => some (d ++ "号箱")
  | Option.none =>
      match searchPat matchCartonAt t with
      | some d => some (d ++ "号箱")
      | Option.none => Option.none

/-- `utils.extract_box_number_from_text` applied to
`config.BOX_MARKER_PATTERNS` (the only pattern list the repository
passes).  A Chinese-numeral group whose conversion is falsy makes the
loop continue with the remaining patterns. -/
def extract_box_number_from_text (text : String) : Option String :=
  if text = "" then Option.none
  else
    let t := pyStripList text.toList
    match searchPat matchBoxDigitsAt t with
    | some d => some (d ++ "号箱")
    | Option.none =>
        match searchPat matchBoxChineseAt t with
        | some ch =>
            (match chinese_to_arabic (String.mk ch.toList) with
             | some n => if n ≠ 0 then some (toString n ++ "号箱") else boxEnOrCarton t
             | Option.none => boxEnOrCarton t)
        | Option.none => boxEnOrCarton t

/-! ### `utils.is_empty_row`, `utils.calculate_header_score`,
`utils.smart_find_header_row` -/

/-- A cell that `is_empty_row` treats as empty: `None`, or stringified
and stripped to `''`/`'nan'`/`'none'`. -/
def cellEmptyish (c : CellValue) : Bool :=
  match c with
  | .none => true
  | c' =>
      let s := pyStrip (pyStrCell c')
      s = "" ∨ pyLower s ∈ ["nan", "none", ""]

/-- `utils.is_empty_row`. -/
def is_empty_row (row : List CellValue) : Bool := row.all cellEmptyish

/-- The `' '.join(str(cell) if cell else '' for cell in row)` idiom. -/
def rowText (row : List CellValue) : String :=
  pyJoin " " (row.map (fun c => if cellTruthy c then pyStrCell c else ""))

/-- `utils.calculate_header_score`: number of distinct lowered keywords
occurring in the joined row text. -/
def calculate_header_score (row : List CellValue) (keywords : List String) : ℕ :=
  if row = [] then 0
  else
    let txt := (pyLower (rowText row)).toList
    (keywords.foldl
      (fun (st : ℕ × List String) kw =>
        let k := pyLower kw
        if strContains txt k.toList ∧ k ∉ st.2 then (st.1 + 1, k :: st.2) else st)
      (0, [])).1

/-- Cells counted by the `non_empty_cells` guard:
`cell is not None and str(cell).strip()`. -/
def nonEmptyCellCount (row : List CellValue) : ℕ :=
  row.countP (fun c => c != CellValue.none && pyStrip (pyStrCell c) != "")

/-- One step of the best-row scan of `smart_find_header_row`. -/
def headerStep (data : List (List CellValue)) (keywords : List String)
    (st : Option ℕ × ℕ) (i : ℕ) : Option ℕ × ℕ :=
  let row := data.getD i []
  if nonEmptyCellCount row < 2 then st
  else
    let sc := calculate_header_score row keywords
    if st.2 < sc then (some i, sc) else st

/-- `utils.smart_find_header_row`. -/
def smart_find_header_row (data : List (List CellValue)) (keywords : List String)
    (max_rows min_score : ℕ) : Option ℕ × ℕ :=
  if data = [] ∨ keywords = [] then (Option.none, 0)
  else
    let best := (List.range (min data.length max_rows)).foldl
      (headerStep data keywords) (Option.none, 0)
    if min_score ≤ best.2 then best else (Option.none, 0)

/-! ### `file_reader.py`: data structures and parsers -/

/-- `file_reader.BOMItem`. -/
structure BOMItem where
  main_part_id : String
  quantity : ℚ
  substitute_ids : List String
  name : String
  row_index : ℤ
deriving DecidableEq

/-- `file_reader.ListItem`. -/
structure ListItem where
  part_id : String
  quantity : ℚ
  box_number : String
  row_index : ℤ
deriving DecidableEq

/-- `config.MappingConfig`.  `header_row` is an `ℤ` because parsing
starts at row `header_row + 1`: the value `-1` (scan every row) is
meaningful to the row slice `raw_data[header_row + 1:]`.  (For
`header_row ≤ -2` Python would index from the end of the list; no caller
produces such a value and the model clamps the start to row 0.) -/
structure MappingConfig where
  header_row : ℤ
  part_col : ℕ
  qty_col : ℕ
  box_col : Option ℕ
  name_col : Option ℕ
  substitute_col : Option ℕ
  stream_parse : Bool

/-- Items plus the skip/total diagnostics of `ParseDiagnostics`. -/
structure ParseOutcome (α : Type) where
  items : List α
  skipped : ℕ
  total_rows : ℕ
deriving DecidableEq

/-- The per-row decision of `parse_bom`: `Option.none` is a skipped row. -/
def bomRowItem (cfg : MappingConfig) (rownum : ℤ) (row : List CellValue) : Option BOMItem :=
  if is_empty_row row then Option.none
  else if row.length ≤ max cfg.part_col cfg.qty_col then Option.none
  else
    let part_id := clean_part_number_cell (row.getD cfg.part_col CellValue.none)
    if part_id = "" then Option.none
    else
      match safe_eval_expression (row.getD cfg.qty_col CellValue.none) with
      | Option.none => Option.none
      | some q =>
          if q ≤ 0 then Option.none
          else
            some
              { main_part_id := part_id
                quantity := q
                substitute_ids :=
                  match cfg.substitute_col with
                  | some sc =>
                      if sc < row.length then extract_substitute_ids (row.getD sc CellValue.none)
                      else []
                  | Option.none => []
                name :=
                  match cfg.name_col with
                  | some nc =>
                      if nc < row.length then
                        (let c := row.getD nc CellValue.none
                         if cellTruthy c then pyStrip (pyStrCell c) else "")
                      else ""
                  | Option.none => ""
                row_index := rownum }

/-- The row loop of `parse_bom`: `rownum` is the 1-based original row
number of the first remaining row. -/
def parseRowsBOM (cfg : MappingConfig) (rownum : ℤ) :
    List (List CellValue) → List BOMItem × ℕ
  | [] => ([], 0)
  | row :: rest =>
      let r := parseRowsBOM cfg (rownum + 1) rest
      match bomRowItem cfg rownum row with
      | some it => (it :: r.1, r.2)
      | Option.none => (r.1, r.2 + 1)

/-- `file_reader.parse_bom` (items and diagnostics; the mirrored
DataFrame is presentation only). -/
def parse_bom (raw : List (List CellValue)) (cfg : MappingConfig) : ParseOutcome BOMItem :=
  let data_rows := raw.drop (cfg.header_row + 1).toNat
  let fin := parseRowsBOM cfg (cfg.header_row + 2) data_rows
  ⟨fin.1, fin.2, data_rows.length⟩

/-- The per-row decision of `_parse_standard`. -/
def stdRowItem (cfg : MappingConfig) (rownum : ℤ) (row : List CellValue) : Option ListItem :=
  if is_empty_row row then Option.none
  else if row.length ≤ max cfg.part_col cfg.qty_col then Option.none
  else
    let part_id := clean_part_number_cell (row.getD cfg.part_col CellValue.none)
    if part_id = "" then Option.none
    else
      match safe_eval_expression (row.getD cfg.qty_col CellValue.none) with
      | Option.none => Option.none
      | some q =>
          some
            { part_id := part_id
              quantity := q
              box_number :=
                match cfg.box_col with
                | some bc =>
                    if bc < row.length then normalize_box_number (row.getD bc CellValue.none)
                    else ""
                | Option.none => ""
              row_index := rownum }

/-- The row loop of `_parse_standard`. -/
def parseRowsStd (cfg : MappingConfig) (rownum : ℤ) :
    List (List CellValue) → List ListItem × ℕ
  | [] => ([], 0)
  | row :: rest =>
      let r := parseRowsStd cfg (rownum + 1) rest
      match stdRowItem cfg rownum row with
      | some it => (it :: r.1, r.2)
      | Option.none => (r.1, r.2 + 1)

/-- `file_reader._parse_standard`. -/
def parseStandard (raw : List (List CellValue)) (cfg : MappingConfig) : ParseOutcome ListItem :=
  let data_rows := raw.drop (cfg.header_row + 1).toNat
  let fin := parseRowsStd cfg (cfg.header_row + 2) data_rows
  ⟨fin.1, fin.2, data_rows.length⟩

/-- One step of the `_parse_stream` state machine.  The state is
`(items, skipped, current_box)`; the input is an (absolute row index,
row) pair.  A row matching a box-marker pattern updates the current box
and is consumed; other rows follow the standard checks and are tagged
with the current box. -/
def streamStep (cfg : MappingConfig) (st : List ListItem × ℕ × String)
    (p : ℕ × List CellValue) : List ListItem × ℕ × String :=
  let (items, skipped, cur) := st
  let (idx, row) := p
  if row = [] then (items, skipped + 1, cur)
  else
    match extract_box_number_from_text (rowText row) with
    | some b => (items, skipped + 1, b)
    | Option.none =>
        if is_empty_row row then (items, skipped + 1, cur)
        else if row.length ≤ max cfg.part_col cfg.qty_col then (items, skipped + 1, cur)
        else
          let part_id := clean_part_number_cell (row.getD cfg.part_col CellValue.none)
          if part_id = "" then (items, skipped + 1, cur)
          else
            match safe_eval_expression (row.getD cfg.qty_col CellValue.none) with
            | Option.none => (items, skipped + 1, cur)
            | some q =>
                (items ++ [{ part_id := part_id, quantity := q, box_number := cur,
                             row_index := (idx : ℤ) + 1 }],
                 skipped, cur)

/-- The row loop of `_parse_stream`: `idx` is the absolute 0-based row
index of the first remaining row. -/
def parseStreamGo (cfg : MappingConfig) (st : List ListItem × ℕ × String) (idx : ℕ) :
    List (List CellValue) → List ListItem × ℕ × String
  | [] => st
  | row :: rest => parseStreamGo cfg (streamStep cfg st (idx, row)) (idx + 1) rest

/-- `file_reader._parse_stream`: scan rows `header_row + 1 …` with the
box state machine; `current_box` starts empty. -/
def parseStream (raw : List (List CellValue)) (cfg : MappingConfig) : ParseOutcome ListItem :=
  let start := (cfg.header_row + 1).toNat
  let fin := parseStreamGo cfg ([], 0, "") start (raw.drop start)
  ⟨fin.1, fin.2.1, raw.length⟩

/-- `file_reader.parse_generic_list`. -/
def parse_generic_list (raw : List (List CellValue)) (cfg : MappingConfig) :
    ParseOutcome ListItem :=
  if cfg.stream_parse then parseStream raw cfg else parseStandard raw cfg

/-! ### `data_processor.py`: the reconciliation engine -/

/-- `config.JudgmentStatus`. -/
def JudgmentStatus.OK : String := "OK"

def JudgmentStatus.OK_WITH_SUB : String := "OK (含替料)"

def JudgmentStatus.NG_QTY_DIFF : String := "NG (数量差异)"

def JudgmentStatus.NG_MISSING : String := "NG (缺料)"

def JudgmentStatus.NG_NOT_IN_BOM : String := "NG (BOM无)"

/-- `data_processor.CompareResult`. -/
structure CompareResult where
  work_order : String
  part_id : String
  part_name : String
  bom_quantity : ℚ
  actual_quantity : ℚ
  difference : ℚ
  status : String
  box_sources : List String
  matched_substitutes : List String
  remark : String
deriving DecidableEq

/-- `data_processor.MatchResult` (`matched_part_ids` is a Python set,
modelled by its contents in first-match order). -/
structure MatchResult where
  compare_result : CompareResult
  matched_part_ids : List String
deriving DecidableEq

/-- The value `build_part_lookup(list_items).get(pid, [])` together with
the `pid in part_lookup` test (nonempty result): items whose cleaned
part id equals `pid`, in list order.  Cleaned-empty ids are never keys. -/
def lookupGet (items : List ListItem) (pid : String) : List ListItem :=
  if pid = "" then [] else items.filter (fun i => clean_part_number i.part_id == pid)

/-- The cleaned main part id of a BOM item. -/
def mainOf (b : BOMItem) : String := clean_part_number b.main_part_id

/-- The cleaned substitute list of `match_bom_item`: truthy raw ids,
cleaned, nonempty and different from the main id. -/
def subsOf (b : BOMItem) : List String :=
  (((b.substitute_ids.filter (· != "")).map clean_part_number).filter
    (fun s => s != "" && s != mainOf b))

/-- `all_parts = [main_part] + substitutes`. -/
def allPartsOf (b : BOMItem) : List String := mainOf b :: subsOf b

/-- `matched_items`: for each candidate id in order, the checklist
records it matches (the lookup-extension loop of `match_bom_item`). -/
def matchedItemsOf (b : BOMItem) (items : List ListItem) : List ListItem :=
  (allPartsOf b).foldr (fun pid acc => lookupGet items pid ++ acc) []

/-- The contents of the `matched_sub_ids` set, in first-seen order. -/
def matchedSubIdsOf (b : BOMItem) (items : List ListItem) : List String :=
  dedupFirst ((subsOf b).filter (fun pid => !(lookupGet items pid).isEmpty))

/-- The contents of the `matched_list_ids` set, in first-seen order. -/
def matchedListIdsOf (b : BOMItem) (items : List ListItem) : List String :=
  dedupFirst ((allPartsOf b).filter (fun pid => !(lookupGet items pid).isEmpty))

/-- The status component of the `if/elif/else` classification of
`match_bom_item` (the source fills status and remarks in one branch
tree; status and remarks are split into two parallel definitions with
the same conditions). -/
def mbiStatus (b : BOMItem) (items : List ListItem) : String :=
  if matchedItemsOf b items = [] then JudgmentStatus.NG_MISSING
  else
    if |((matchedItemsOf b items).map ListItem.quantity).sum - b.quantity| < 1 / 1000 then
      if matchedSubIdsOf b items ≠ [] then JudgmentStatus.OK_WITH_SUB else JudgmentStatus.OK
    else JudgmentStatus.NG_QTY_DIFF

/-- The remarks component of the classification of `match_bom_item`. -/
def mbiRemarks (σ : List String → List String) (b : BOMItem) (items : List ListItem) :
    List String :=
  if matchedItemsOf b items = [] then ["清单中未找到该料号及其替代料"]
  else
    if |((matchedItemsOf b items).map ListItem.quantity).sum - b.quantity| < 1 / 1000 then
      if matchedSubIdsOf b items ≠ [] then
        ["使用替代料: " ++ pyJoin ", " (pySortStr (σ (matchedSubIdsOf b items)))]
      else []
    else
      [(if 0 < ((matchedItemsOf b items).map ListItem.quantity).sum - b.quantity then "超量 +"
        else "欠量 ") ++
          format_number (((matchedItemsOf b items).map ListItem.quantity).sum - b.quantity)] ++
        (if matchedSubIdsOf b items ≠ [] then
          ["含替代料: " ++ pyJoin ", " (pySortStr (σ (matchedSubIdsOf b items)))]
        else [])

/-- `data_processor.match_bom_item`.  `σ` is the iteration order of
Python `set` values (`sorted(matched_sub_ids)` and
`list(matched_sub_ids)`); it is always a permutation of the modelled
set contents. -/
def match_bom_item (σ : List String → List String) (b : BOMItem) (items : List ListItem)
    (work_order : String) : MatchResult :=
  { compare_result :=
      { work_order := work_order
        part_id := mainOf b
        part_name := b.name
        bom_quantity := b.quantity
        actual_quantity := ((matchedItemsOf b items).map ListItem.quantity).sum
        difference := ((matchedItemsOf b items).map ListItem.quantity).sum - b.quantity
        status := mbiStatus b items
        box_sources :=
          ((matchedItemsOf b items).filter (fun i => i.box_number != "")).map
            ListItem.box_number
        matched_substitutes := σ (matchedSubIdsOf b items)
        remark := pyJoin "; " (mbiRemarks σ b items) }
    matched_part_ids := matchedListIdsOf b items }

/-- The key order of the insertion-ordered `unmatched` dict of
`find_unmatched_list_items`. -/
def unmatchedKeys (items : List ListItem) (bomAll : List String) : List String :=
  items.foldl
    (fun acc i =>
      let p := clean_part_number i.part_id
      if p ≠ "" ∧ p ∉ bomAll ∧ p ∉ acc then acc ++ [p] else acc)
    []

/-- `data_processor.find_unmatched_list_items`. -/
def find_unmatched_list_items (items : List ListItem) (bomAll : List String)
    (work_order : String) : List CompareResult :=
  (unmatchedKeys items bomAll).map fun p =>
    let grp := items.filter (fun i => clean_part_number i.part_id == p)
    let total := (grp.map ListItem.quantity).sum
    { work_order := work_order
      part_id := p
      part_name := ""
      bom_quantity := 0
      actual_quantity := total
      difference := total
      status := JudgmentStatus.NG_NOT_IN_BOM
      box_sources := (grp.filter (fun i => i.box_number != "")).map ListItem.box_number
      matched_substitutes := []
      remark := "疑似技术变更或异常混料，请核实" }

/-- The `bom_all` set of `compare_bom_and_list` (all nonempty cleaned
main and substitute ids), modelled by a membership-equivalent list. -/
def bomAllParts (bom : List BOMItem) : List String :=
  bom.foldr
    (fun b acc =>
      (if mainOf b ≠ "" then [mainOf b] else []) ++
        (b.substitute_ids.map clean_part_number).filter (· != "") ++ acc)
    []

/-- The ordered result list `all_res = bom_results + extra` of
`compare_bom_and_list`. -/
def allResults (σ : List String → List String) (bom : List BOMItem) (items : List ListItem)
    (work_order : String) : List CompareResult :=
  bom.map (fun b => (match_bom_item σ b items work_order).compare_result) ++
    find_unmatched_list_items items (bomAllParts bom) work_order

/-- One display row of the result table built at the end of
`compare_bom_and_list` (the data handed to pandas, field per column). -/
structure OutRow where
  work_order : String
  part_id : String
  name : String
  bom_qty : String
  actual : String
  diff : String
  status : String
  box_str : String
  remark : String
deriving DecidableEq

/-- The row-building dict comprehension of `compare_bom_and_list`. -/
def rowOf (σ : List String → List String) (r : CompareResult) : OutRow :=
  { work_order := if r.work_order = "" then "-" else r.work_order
    part_id := r.part_id
    name := if r.part_name = "" then "-" else r.part_name
    bom_qty := format_number r.bom_quantity
    actual := format_number r.actual_quantity
    diff := format_number r.difference
    status := r.status
    box_str := merge_box_numbers σ r.box_sources
    remark := r.remark }

/-- The displayed output of `compare_bom_and_list`, one row per result. -/
def compareRows (σ : List String → List String) (bom : List BOMItem) (items : List ListItem)
    (work_order : String) : List OutRow :=
  (allResults σ bom items work_order).map (rowOf σ)

/-- The checklist records contributing to each output record, in output
order: `matched_items` for the forward pass, the grouped dict values for
the reverse pass. -/
def provenances (bom : List BOMItem) (items : List ListItem) : List (List ListItem) :=
  bom.map (fun b => matchedItemsOf b items) ++
    (unmatchedKeys items (bomAllParts bom)).map
      (fun p => items.filter (fun i => clean_part_number i.part_id == p))

/-! ### Claim-side predicates

Conditions of the specification, phrased over the raw inputs rather than
over the engine's intermediate values. -/

/-- Some checklist record matches a candidate id (main or substitute) of
the BOM item. -/
def anyMatch (b : BOMItem) (items : List ListItem) : Prop :=
  ∃ i ∈ items, clean_part_number i.part_id ≠ "" ∧ clean_part_number i.part_id ∈ allPartsOf b

/-- Some checklist record matches a substitute id of the BOM item. -/
def subMatch (b : BOMItem) (items : List ListItem) : Prop :=
  ∃ i ∈ items, clean_part_number i.part_id ∈ subsOf b

instance (b : BOMItem) (items : List ListItem) : Decidable (anyMatch b items) := by
  unfold anyMatch; infer_instance

instance (b : BOMItem) (items : List ListItem) : Decidable (subMatch b items) := by
  unfold subMatch; infer_instance

/-- A row the header scan does not skip (at least two non-empty cells). -/
def eligibleRow (row : List CellValue) : Prop := 2 ≤ nonEmptyCellCount row

instance (row : List CellValue) : Decidable (eligibleRow row) := by
  unfold eligibleRow; infer_instance

/-- The Chinese character for a nonzero decimal digit. -/
def chineseDigit (n : ℕ) : String :=
  match n with
  | 1 => "一" | 2 => "二" | 3 => "三" | 4 => "四" | 5 => "五"
  | 6 => "六" | 7 => "七" | 8 => "八" | 9 => "九" | _ => ""

/-- The standard positional writing of `n` (1 ≤ n ≤ 9999): thousands,
hundreds, tens, units, each written `digit + magnitude` and omitted when
zero. -/
def chineseCanonical (n : ℕ) : String :=
  (if 0 < n / 1000 then chineseDigit (n / 1000 % 10) ++ "千" else "") ++
    (if 0 < n / 100 % 10 then chineseDigit (n / 100 % 10) ++ "百" else "") ++
      (if 0 < n / 10 % 10 then chineseDigit (n / 10 % 10) ++ "十" else "") ++
        (if 0 < n % 10 then chineseDigit (n % 10) else "")

/-- The colloquial teens form `十`, `十一` … `十九`. -/
def chineseTeen (n : ℕ) : String :=
  "十" ++ (if n % 10 = 0 then "" else chineseDigit (n % 10))

/-- A well-formed writing of the number `n` over the characters
一–九, 十, 百: the standard positional form, or the teens form. -/
def wellFormedNumeral (s : String) (n : ℕ) : Prop :=
  s = chineseCanonical n ∨ (10 ≤ n ∧ n ≤ 19 ∧ s = chineseTeen n)

/-- `n < 1000` has an interior zero (tens digit zero between a nonzero
hundreds digit and a nonzero units digit); its standard writing needs
零, which is outside the 一–九/十/百 character set. -/
def hasInteriorZero (n : ℕ) : Prop :=
  0 < n / 100 ∧ n / 10 % 10 = 0 ∧ 0 < n % 10

instance (n : ℕ) : Decidable (hasInteriorZero n) := by
  unfold hasInteriorZero; infer_instance

/-! ### Helper lemmas -/

theorem mem_foldl_dedup (l : List String) (acc : List String) (y : String) :
    y ∈ l.foldl (fun acc x => if x ∈ acc then acc else acc ++ [x]) acc ↔ y ∈ acc ∨ y ∈ l := by
  induction l generalizing acc with
  | nil => simp
  | cons x xs ih =>
      simp only [List.foldl_cons, ih, List.mem_cons]
      by_cases hx : x ∈ acc
      · simp only [if_pos hx]
        constructor
        · rintro (h | h)
          · exact Or.inl h
          · exact Or.inr (Or.inr h)
        · rintro (h | h | h)
          · exact Or.inl h
          · exact Or.inl (h ▸ hx)
          · exact Or.inr h
      · simp only [if_neg hx, List.mem_append, List.mem_singleton]
        tauto

theorem mem_dedupFirst {l : List String} {y : String} : y ∈ dedupFirst l ↔ y ∈ l := by
  unfold dedupFirst
  rw [mem_foldl_dedup]
  simp

theorem nodup_foldl_dedup (l : List String) (acc : List String) (h : acc.Nodup) :
    (l.foldl (fun acc x => if x ∈ acc then acc else acc ++ [x]) acc).Nodup := by
  induction l generalizing acc with
  | nil => simpa
  | cons x xs ih =>
      simp only [List.foldl_cons]
      by_cases hx : x ∈ acc
      · rw [if_pos hx]; exact ih acc h
      · rw [if_neg hx]
        refine ih _ ?_
        rw [List.nodup_append]
        refine ⟨h, List.nodup_singleton x, ?_⟩
        intro a ha hax
        rw [List.mem_singleton] at hax
        exact hx (hax ▸ ha)

theorem dedupFirst_nodup (l : List String) : (dedupFirst l).Nodup :=
  nodup_foldl_dedup l [] List.nodup_nil

theorem dedupFirst_eq_nil {l : List String} : dedupFirst l = [] ↔ l = [] := by
  constructor
  · intro h
    cases l with
    | nil => rfl
    | cons x xs =>
        exact absurd (mem_dedupFirst.2 (List.mem_cons_self x xs)) (by simp [h])
  · rintro rfl; rfl

theorem mem_lookupGet {items : List ListItem} {pid : String} {i : ListItem} :
    i ∈ lookupGet items pid ↔ pid ≠ "" ∧ i ∈ items ∧ clean_part_number i.part_id = pid := by
  unfold lookupGet
  by_cases h : pid = "" <;> simp [h, List.mem_filter]

theorem lookupGet_ne_nil {items : List ListItem} {pid : String} :
    lookupGet items pid ≠ [] ↔ pid ≠ "" ∧ ∃ i ∈ items, clean_part_number i.part_id = pid := by
  constructor
  · intro h
    cases hl : lookupGet items pid with
    | nil => exact absurd hl h
    | cons a l =>
        have ha : a ∈ lookupGet items pid := hl ▸ List.mem_cons_self a l
        rcases mem_lookupGet.1 ha with ⟨h1, h2, h3⟩
        exact ⟨h1, a, h2, h3⟩
  · rintro ⟨h1, i, h2, h3⟩ hnil
    have := mem_lookupGet.2 ⟨h1, h2, h3⟩
    rw [hnil] at this
    exact List.not_mem_nil i this

theorem matchedItemsOf_eq_flatMap (b : BOMItem) (items : List ListItem) :
    matchedItemsOf b items = (allPartsOf b).flatMap (lookupGet items) := by
  unfold matchedItemsOf
  induction allPartsOf b with
  | nil => rfl
  | cons p ps ih => simp [List.flatMap_cons, ih]

theorem mem_matchedItemsOf {b : BOMItem} {items : List ListItem} {i : ListItem} :
    i ∈ matchedItemsOf b items ↔
      ∃ pid ∈ allPartsOf b, pid ≠ "" ∧ i ∈ items ∧ clean_part_number i.part_id = pid := by
  rw [matchedItemsOf_eq_flatMap, List.mem_flatMap]
  constructor
  · rintro ⟨pid, h1, h2⟩
    rcases mem_lookupGet.1 h2 with ⟨ha, hb, hc⟩
    exact ⟨pid, h1, ha, hb, hc⟩
  · rintro ⟨pid, h1, ha, hb, hc⟩
    exact ⟨pid, h1, mem_lookupGet.2 ⟨ha, hb, hc⟩⟩

theorem matchedItemsOf_eq_nil_iff {b : BOMItem} {items : List ListItem} :
    matchedItemsOf b items = [] ↔ ¬ anyMatch b items := by
  rw [List.eq_nil_iff_forall_not_mem]
  unfold anyMatch
  constructor
  · rintro h ⟨i, hi, hne, hmem⟩
    exact h i (mem_matchedItemsOf.2 ⟨clean_part_number i.part_id, hmem, hne, hi, rfl⟩)
  · intro h i hi
    rcases mem_matchedItemsOf.1 hi with ⟨pid, h1, ha, hb, hc⟩
    exact h ⟨i, hb, hc ▸ ha, hc ▸ h1⟩

theorem mem_subsOf_ne_empty {b : BOMItem} {p : String} (h : p ∈ subsOf b) : p ≠ "" := by
  unfold subsOf at h
  rcases List.mem_filter.1 h with ⟨-, hp⟩
  simp only [Bool.and_eq_true, bne_iff_ne, ne_eq] at hp
  exact hp.1

theorem mem_matchedSubIdsOf {b : BOMItem} {items : List ListItem} {p : String} :
    p ∈ matchedSubIdsOf b items ↔
      p ∈ subsOf b ∧ ∃ i ∈ items, clean_part_number i.part_id = p := by
  unfold matchedSubIdsOf
  rw [mem_dedupFirst, List.mem_filter]
  constructor
  · rintro ⟨h1, h2⟩
    have := lookupGet_ne_nil.1 (by simpa using h2)
    exact ⟨h1, this.2⟩
  · rintro ⟨h1, h2⟩
    refine ⟨h1, by simpa using lookupGet_ne_nil.2 ⟨mem_subsOf_ne_empty h1, h2⟩⟩

theorem matchedSubIdsOf_ne_nil_iff {b : BOMItem} {items : List ListItem} :
    matchedSubIdsOf b items ≠ [] ↔ subMatch b items := by
  constructor
  · intro h
    have ⟨p, hp⟩ : ∃ p, p ∈ matchedSubIdsOf b items := by
      cases hl : matchedSubIdsOf b items with
      | nil => exact absurd hl h
      | cons a l => exact ⟨a, hl ▸ List.mem_cons_self a l⟩
    rcases mem_matchedSubIdsOf.1 hp with ⟨h1, i, h2, h3⟩
    exact ⟨i, h2, h3 ▸ h1⟩
  · rintro ⟨i, hi, hmem⟩ hnil
    have : clean_part_number i.part_id ∈ matchedSubIdsOf b items :=
      mem_matchedSubIdsOf.2 ⟨hmem, i, hi, rfl⟩
    simp [hnil] at this

theorem mem_unmatchedKeys_aux (items : List ListItem) (bomAll : List String)
    (acc : List String) (p : String) :
    p ∈ items.foldl
        (fun acc i =>
          let q := clean_part_number i.part_id
          if q ≠ "" ∧ q ∉ bomAll ∧ q ∉ acc then acc ++ [q] else acc) acc ↔
      p ∈ acc ∨ (p ≠ "" ∧ p ∉ bomAll ∧ ∃ i ∈ items, clean_part_number i.part_id = p) := by
  induction items generalizing acc with
  | nil => simp
  | cons x xs ih =>
      simp only [List.foldl_cons, ih, List.mem_cons]
      by_cases hc : clean_part_number x.part_id ≠ "" ∧
          clean_part_number x.part_id ∉ bomAll ∧ clean_part_number x.part_id ∉ acc
      · simp only [if_pos hc, List.mem_append, List.mem_singleton]
        constructor
        · rintro ((h | h) | h)
          · exact Or.inl h
          · exact Or.inr ⟨h ▸ hc.1, h ▸ hc.2.1, x, Or.inl rfl, h.symm⟩
          · exact Or.inr ⟨h.1, h.2.1, h.2.2.imp fun i hi => ⟨Or.inr hi.1, hi.2⟩⟩
        · rintro (h | ⟨h1, h2, i, (rfl : i = x) | hi, h3⟩)
          · exact Or.inl (Or.inl h)
          · exact Or.inl (Or.inr h3.symm)
          · exact Or.inr ⟨h1, h2, i, hi, h3⟩
      · simp only [if_neg hc]
        constructor
        · rintro (h | h)
          · exact Or.inl h
          · exact Or.inr ⟨h.1, h.2.1, h.2.2.imp fun i hi => ⟨Or.inr hi.1, hi.2⟩⟩
        · rintro (h | ⟨h1, h2, i, (rfl : i = x) | hi, h3⟩)
          · exact Or.inl h
          · push_neg at hc
            exact Or.inl (h3 ▸ hc (h3 ▸ h1) (h3 ▸ h2))
          · exact Or.inr ⟨h1, h2, i, hi, h3⟩

theorem mem_unmatchedKeys {items : List ListItem} {bomAll : List String} {p : String} :
    p ∈ unmatchedKeys items bomAll ↔
      p ≠ "" ∧ p ∉ bomAll ∧ ∃ i ∈ items, clean_part_number i.part_id = p := by
  unfold unmatchedKeys
  rw [mem_unmatchedKeys_aux]
  simp

theorem unmatchedKeys_nodup (items : List ListItem) (bomAll : List String) :
    (unmatchedKeys items bomAll).Nodup := by
  unfold unmatchedKeys
  suffices h : ∀ acc : List String, acc.Nodup →
      (items.foldl
        (fun acc i =>
          let q := clean_part_number i.part_id
          if q ≠ "" ∧ q ∉ bomAll ∧ q ∉ acc then acc ++ [q] else acc) acc).Nodup from
    h [] List.nodup_nil
  induction items with
  | nil => intro acc h; simpa
  | cons x xs ih =>
      intro acc h
      simp only [List.foldl_cons]
      by_cases hc : clean_part_number x.part_id ≠ "" ∧
          clean_part_number x.part_id ∉ bomAll ∧ clean_part_number x.part_id ∉ acc
      · rw [if_pos hc]
        refine ih _ ?_
        rw [List.nodup_append]
        refine ⟨h, List.nodup_singleton _, ?_⟩
        intro a ha hax
        rw [List.mem_singleton] at hax
        exact hc.2.2 (hax ▸ ha)
      · rw [if_neg hc]
        exact ih acc h

theorem mem_bomAllParts {bom : List BOMItem} {p : String} :
    p ∈ bomAllParts bom ↔
      p ≠ "" ∧ ∃ b ∈ bom, p = mainOf b ∨ ∃ s ∈ b.substitute_ids, clean_part_number s = p := by
  unfold bomAllParts
  induction bom with
  | nil => simp
  | cons b bs ih =>
      simp only [List.foldr_cons, List.mem_append, ih, List.mem_cons]
      constructor
      · rintro ((h | h) | ⟨h1, b', h2, h3⟩)
        · by_cases hmain : mainOf b ≠ ""
          · rw [if_pos hmain, List.mem_singleton] at h
            exact ⟨h ▸ hmain, b, Or.inl rfl, Or.inl h⟩
          · rw [if_neg hmain] at h
            exact absurd h (List.not_mem_nil p)
        · rcases List.mem_filter.1 h with ⟨hmem, hne⟩
          rcases List.mem_map.1 hmem with ⟨s, hs, rfl⟩
          refine ⟨?_, b, Or.inl rfl, Or.inr ⟨s, hs, rfl⟩⟩
          simpa using hne
        · exact ⟨h1, b', Or.inr h2, h3⟩
      · rintro ⟨h1, b', rfl | h2, h3⟩
        · rcases h3 with hpm | ⟨s, hs, hc⟩
          · refine Or.inl (Or.inl ?_)
            have hbm : mainOf b' ≠ "" := fun hh => h1 (hpm.trans hh)
            rw [if_pos hbm, List.mem_singleton]
            exact hpm
          · refine Or.inl (Or.inr (List.mem_filter.2 ⟨List.mem_map.2 ⟨s, hs, hc⟩, ?_⟩))
            simpa using h1
        · exact Or.inr ⟨h1, b', h2, h3⟩

theorem exists_allParts_of_mem_bomAllParts {bom : List BOMItem} {p : String}
    (h : p ∈ bomAllParts bom) : ∃ b ∈ bom, p ∈ allPartsOf b := by
  rcases mem_bomAllParts.1 h with ⟨hne, b, hb, rfl | ⟨s, hs, hc⟩⟩
  · exact ⟨b, hb, List.mem_cons_self _ _⟩
  · by_cases hm : p = mainOf b
    · exact ⟨b, hb, hm ▸ List.mem_cons_self _ _⟩
    · refine ⟨b, hb, List.mem_cons_of_mem _ ?_⟩
      unfold subsOf
      refine List.mem_filter.2 ⟨List.mem_map.2 ⟨s, List.mem_filter.2 ⟨hs, ?_⟩, hc⟩, ?_⟩
      · by_contra hse
        simp only [bne_iff_ne, ne_eq, not_not] at hse
        exact hne (hc ▸ hse ▸ (by decide : clean_part_number "" = ""))
      · simp [hne, hm]

theorem mem_pySortStr {l : List String} {p : String} : p ∈ pySortStr l ↔ p ∈ l :=
  (List.perm_insertionSort _ l).mem_iff

theorem mbi_actual (σ : List String → List String) (b : BOMItem) (items : List ListItem)
    (wo : String) :
    (match_bom_item σ b items wo).compare_result.actual_quantity =
      ((matchedItemsOf b items).map ListItem.quantity).sum := by
  simp only [match_bom_item]

theorem mbi_status (σ : List String → List String) (b : BOMItem) (items : List ListItem)
    (wo : String) :
    (match_bom_item σ b items wo).compare_result.status =
      if matchedItemsOf b items = [] then JudgmentStatus.NG_MISSING
      else
        if |((matchedItemsOf b items).map ListItem.quantity).sum - b.quantity| < 1 / 1000 then
          if matchedSubIdsOf b items ≠ [] then JudgmentStatus.OK_WITH_SUB
          else JudgmentStatus.OK
        else JudgmentStatus.NG_QTY_DIFF := by
  simp only [match_bom_item, mbiStatus]

theorem mbi_remark_sub (σ : List String → List String) (b : BOMItem) (items : List ListItem)
    (wo : String) (h1 : matchedItemsOf b items ≠ [])
    (h2 : |((matchedItemsOf b items).map ListItem.quantity).sum - b.quantity| < 1 / 1000)
    (h3 : matchedSubIdsOf b items ≠ []) :
    (match_bom_item σ b items wo).compare_result.remark =
      "使用替代料: " ++ pyJoin ", " (pySortStr (σ (matchedSubIdsOf b items))) := by
  simp only [match_bom_item]
  unfold mbiRemarks
  rw [if_neg h1, if_pos h2, if_pos h3]
  rfl

/-- C1: a matched BOM record's status is chosen by the first matching
rule, in order: no checklist record matches any candidate id (main or
substitute) → `NG (缺料)`; `|actual − bomQuantity| < 0.001` with a
substitute contributing → `OK (含替料)` with the matched substitute ids
sorted in the remark; `|actual − bomQuantity| < 0.001` otherwise → `OK`;
otherwise → `NG (数量差异)`.  In particular BOM quantity 10 with actual
10.0009 is `OK`, actual 10.002 is `NG (数量差异)`, and a substitute
contributing only part of the quantity (main `1001`: 3 plus substitute
`2002`: 2 against BOM quantity 5) gives `OK (含替料)` naming `2002`. -/
theorem claim_c1_classification (b : BOMItem) (items : List ListItem) (wo : String) :
    ((match_bom_item id b items wo).compare_result.status =
      if ¬ anyMatch b items then JudgmentStatus.NG_MISSING
      else
        if |(match_bom_item id b items wo).compare_result.actual_quantity - b.quantity| <
            1 / 1000 then
          if subMatch b items then JudgmentStatus.OK_WITH_SUB else JudgmentStatus.OK
        else JudgmentStatus.NG_QTY_DIFF) ∧
    (anyMatch b items →
      |(match_bom_item id b items wo).compare_result.actual_quantity - b.quantity| < 1 / 1000 →
      subMatch b items →
      (match_bom_item id b items wo).compare_result.remark =
          "使用替代料: " ++ pyJoin ", " (pySortStr (matchedSubIdsOf b items)) ∧
        List.Sorted (fun a b => a ≤ b) (pySortStr (matchedSubIdsOf b items)) ∧
        (∀ p, p ∈ pySortStr (matchedSubIdsOf b items) ↔
          p ∈ subsOf b ∧ ∃ i ∈ items, clean_part_number i.part_id = p)) ∧
    (match_bom_item id ⟨"1001", 10, [], "", 0⟩
        [⟨"1001", 10.0009, "", 0⟩] "").compare_result.status = JudgmentStatus.OK ∧
    (match_bom_item id ⟨"1001", 10, [], "", 0⟩
        [⟨"1001", 10.002, "", 0⟩] "").compare_result.status = JudgmentStatus.NG_QTY_DIFF ∧
    (match_bom_item id ⟨"1001", 5, ["2002"], "", 0⟩
        [⟨"1001", 3, "", 0⟩, ⟨"2002", 2, "", 0⟩] "").compare_result.status =
      JudgmentStatus.OK_WITH_SUB ∧
    (match_bom_item id ⟨"1001", 5, ["2002"], "", 0⟩
        [⟨"1001", 3, "", 0⟩, ⟨"2002", 2, "", 0⟩] "").compare_result.remark =
      "使用替代料: 2002" := by
  refine ⟨?_, ?_, by with_unfolding_all decide, by with_unfolding_all decide,
    by with_unfolding_all decide, by with_unfolding_all decide⟩
  · rw [mbi_status, mbi_actual]
    by_cases hA : anyMatch b items
    · have hm : matchedItemsOf b items ≠ [] := by
        rw [Ne, matchedItemsOf_eq_nil_iff]
        exact not_not_intro hA
      rw [if_neg hm, if_neg (not_not_intro hA)]
      by_cases hT :
          |((matchedItemsOf b items).map ListItem.quantity).sum - b.quantity| < 1 / 1000
      · rw [if_pos hT, if_pos hT]
        by_cases hS : subMatch b items
        · rw [if_pos (matchedSubIdsOf_ne_nil_iff.2 hS), if_pos hS]
        · rw [if_neg (fun h => hS (matchedSubIdsOf_ne_nil_iff.1 h)), if_neg hS]
      · rw [if_neg hT, if_neg hT]
    · rw [if_pos (matchedItemsOf_eq_nil_iff.2 hA), if_pos hA]
  · intro hA hT hS
    have h1 : matchedItemsOf b items ≠ [] := by
      rw [Ne, matchedItemsOf_eq_nil_iff]
      exact not_not_intro hA
    have h3 : matchedSubIdsOf b items ≠ [] := matchedSubIdsOf_ne_nil_iff.2 hS
    rw [mbi_actual] at hT
    refine ⟨mbi_remark_sub id b items wo h1 hT h3, ?_, ?_⟩
    · exact List.sorted_insertionSort _ _
    · intro p
      rw [mem_pySortStr, mem_matchedSubIdsOf]

/-- C1 witness: the substitute-contribution example exercises the
hypotheses of the remark clause. -/
theorem claim_c1_classification_witness :
    (match_bom_item id ⟨"1001", 5, ["2002"], "", 0⟩
        [⟨"1001", 3, "", 0⟩, ⟨"2002", 2, "", 0⟩] "").compare_result.remark =
      "使用替代料: " ++ pyJoin ", "
        (pySortStr (matchedSubIdsOf ⟨"1001", 5, ["2002"], "", 0⟩
          [⟨"1001", 3, "", 0⟩, ⟨"2002", 2, "", 0⟩])) :=
  ((claim_c1_classification ⟨"1001", 5, ["2002"], "", 0⟩
      [⟨"1001", 3, "", 0⟩, ⟨"2002", 2, "", 0⟩] "").2.1
    (by with_unfolding_all decide) (by with_unfolding_all decide)
    (by with_unfolding_all decide)).1

/-- C2 counterexample: in the engine output for BOM lines
`{1001}` and `{3003 with substitute 1001}` against checklist
`[1001 × 1, "" × 2]`, the checklist record `1001` is counted in TWO
output records' provenance (it matches `1001` as a main id and as a
substitute), and the record whose id cleans to `""` in none — the claim
demands exactly one for every checklist record. -/
theorem claim_c2_counterexample :
    ((provenances [⟨"1001", 1, [], "", 0⟩, ⟨"3003", 1, ["1001"], "", 0⟩]
        [⟨"1001", 1, "", 0⟩, ⟨"", 2, "", 0⟩]).countP
      (fun prov => decide ((⟨"1001", 1, "", 0⟩ : ListItem) ∈ prov)) = 2) ∧
    ((provenances [⟨"1001", 1, [], "", 0⟩, ⟨"3003", 1, ["1001"], "", 0⟩]
        [⟨"1001", 1, "", 0⟩, ⟨"", 2, "", 0⟩]).countP
      (fun prov => decide ((⟨"", 2, "", 0⟩ : ListItem) ∈ prov)) = 0) := by
  with_unfolding_all decide

/-- C2 (amended): the output is complete in the weaker sense the code
guarantees: `|CompareRecords| ≥ |BOM records|`, there is one provenance
per output record, and every checklist record whose part id cleans to a
nonempty string is represented in AT LEAST one output record's
provenance (an id that is both a main id and another line's substitute
is represented more than once; an id cleaning to empty is dropped). -/
theorem claim_c2_completeness (bom : List BOMItem) (items : List ListItem) (wo : String) :
    bom.length ≤ (allResults id bom items wo).length ∧
    (provenances bom items).length = (allResults id bom items wo).length ∧
    ∀ i ∈ items, clean_part_number i.part_id ≠ "" →
      1 ≤ (provenances bom items).countP (fun prov => decide (i ∈ prov)) := by
  refine ⟨?_, ?_, ?_⟩
  · simp only [allResults, List.length_append, List.length_map]
    exact Nat.le_add_right _ _
  · simp [provenances, allResults, find_unmatched_list_items]
  · intro i hi hne
    rw [Nat.succ_le_iff, List.countP_pos_iff]
    by_cases hp : clean_part_number i.part_id ∈ bomAllParts bom
    · obtain ⟨b, hb, hmem⟩ := exists_allParts_of_mem_bomAllParts hp
      refine ⟨matchedItemsOf b items, ?_, ?_⟩
      · exact List.mem_append_left _ (List.mem_map.2 ⟨b, hb, rfl⟩)
      · simpa using mem_matchedItemsOf.2 ⟨clean_part_number i.part_id, hmem, hne, hi, rfl⟩
    · refine ⟨items.filter (fun x => clean_part_number x.part_id == clean_part_number i.part_id),
        ?_, ?_⟩
      · exact List.mem_append_right _
          (List.mem_map.2 ⟨clean_part_number i.part_id,
            mem_unmatchedKeys.2 ⟨hne, hp, i, hi, rfl⟩, rfl⟩)
      · simp [List.mem_filter, hi]

/-- C2 witness: a single matching line is represented at least once. -/
theorem claim_c2_completeness_witness :
    1 ≤ (provenances [⟨"1001", 1, [], "", 0⟩] [⟨"1001", 1, "", 0⟩]).countP
        (fun prov => decide ((⟨"1001", 1, "", 0⟩ : ListItem) ∈ prov)) :=
  (claim_c2_completeness [⟨"1001", 1, [], "", 0⟩] [⟨"1001", 1, "", 0⟩] "").2.2
    ⟨"1001", 1, "", 0⟩ (by with_unfolding_all decide) (by with_unfolding_all decide)

/-- C3 counterexample: the checklist record with part id `""` has a
normalized id outside the BOM id set (which never contains `""`), yet
the reverse pass emits NO `NG (BOM无)` record for it — the claim demands
exactly one record per distinct unmatched id. -/
theorem claim_c3_counterexample :
    clean_part_number "" = "" ∧
    "" ∉ bomAllParts [] ∧
    find_unmatched_list_items [⟨"", 2, "", 0⟩] (bomAllParts []) "" = [] := by
  refine ⟨by decide, ?_, by with_unfolding_all decide⟩
  intro h
  simp [bomAllParts] at h

/-- C3 (amended): for every distinct NONEMPTY normalized part id that
occurs in the checklist and is absent from the BOM id set, the reverse
pass emits exactly one `NG (BOM无)` record, with `bomQuantity = 0`,
actual equal to the sum of the quantities of the records grouped under
that id, and `difference = actual`.  (Records whose id cleans to the
empty string are excluded; see C10.) -/
theorem claim_c3_reverse_pass (bom : List BOMItem) (items : List ListItem) (wo : String)
    (p : String) (hp : p ≠ "") (hnb : p ∉ bomAllParts bom)
    (hex : ∃ i ∈ items, clean_part_number i.part_id = p) :
    ((find_unmatched_list_items items (bomAllParts bom) wo).countP
      (fun r => r.part_id == p) = 1) ∧
    ∀ r ∈ find_unmatched_list_items items (bomAllParts bom) wo, r.part_id = p →
      r.status = JudgmentStatus.NG_NOT_IN_BOM ∧
      r.bom_quantity = 0 ∧
      r.actual_quantity =
        ((items.filter (fun i => clean_part_number i.part_id == p)).map
          ListItem.quantity).sum ∧
      r.difference = r.actual_quantity := by
  constructor
  · have hmem : p ∈ unmatchedKeys items (bomAllParts bom) :=
      mem_unmatchedKeys.2 ⟨hp, hnb, hex⟩
    have hnd := unmatchedKeys_nodup items (bomAllParts bom)
    simp only [find_unmatched_list_items, List.countP_map]
    have : ((fun r : CompareResult => r.part_id == p) ∘ fun q =>
        ({ work_order := wo, part_id := q, part_name := "", bom_quantity := 0,
           actual_quantity := ((items.filter
             (fun i => clean_part_number i.part_id == q)).map ListItem.quantity).sum,
           difference := ((items.filter
             (fun i => clean_part_number i.part_id == q)).map ListItem.quantity).sum,
           status := JudgmentStatus.NG_NOT_IN_BOM,
           box_sources := ((items.filter
             (fun i => clean_part_number i.part_id == q)).filter
               (fun i => i.box_number != "")).map ListItem.box_number,
           matched_substitutes := [], remark := "疑似技术变更或异常混料，请核实" } :
          CompareResult)) = fun q => q == p := rfl
    rw [this]
    exact List.count_eq_one_of_mem hnd hmem
  · intro r hr hpid
    rcases List.mem_map.1 hr with ⟨k, hk, rfl⟩
    have hkp : k = p := hpid
    subst hkp
    exact ⟨rfl, rfl, rfl, rfl⟩

/-- C3 witness: an unmatched id `9999` produces exactly one record. -/
theorem claim_c3_reverse_pass_witness :
    (find_unmatched_list_items [⟨"9999", 2, "", 0⟩] (bomAllParts []) "").countP
      (fun r => r.part_id == "9999") = 1 :=
  (claim_c3_reverse_pass [] [⟨"9999", 2, "", 0⟩] "" "9999" (by decide)
    (by intro h; simp [bomAllParts] at h)
    ⟨⟨"9999", 2, "", 0⟩, by with_unfolding_all decide, by decide⟩).1

/-- C5 counterexample: `"1e3"` contains the letter `e`, outside the
allow-list, yet `safe_eval_expression` returns `1000.0` — the direct
numeric parse runs BEFORE the allow-list check, so the claim "any
textual input containing a character outside the allow-list yields
not-ok" is false. -/
theorem claim_c5_counterexample :
    allowListed "1e3" = false ∧
    prepExpr "1e3" = "1e3" ∧
    safe_eval_expression (.str "1e3") = some 1000 := by
  refine ⟨by decide, by decide, by with_unfolding_all decide⟩

/-- C5 (amended): numeric NaN yields not-ok; a textual input that is
empty or a null-token after stripping yields not-ok; a textual input
that FAILS THE DIRECT NUMERIC PARSE and contains a character outside
the allow-list yields not-ok; an arithmetic error in the restricted
evaluation (including divide-by-zero) yields not-ok; and
`"100*9" → 900.0`, `"100*9; DROP" → not-ok`, `"8/0" → not-ok`. -/
theorem claim_c5_evaluator (s : String) :
    safe_eval_expression CellValue.nan = Option.none ∧
    (prepExpr s = "" ∨ pyLower (prepExpr s) ∈ ["nan", "none", "", "-"] →
      safe_eval_expression (.str s) = Option.none) ∧
    (pyFloat (prepExpr s) = Option.none → allowListed (prepExpr s) = false →
      safe_eval_expression (.str s) = Option.none) ∧
    (pyFloat (prepExpr s) = Option.none → evalPy (prepExpr s) = Option.none →
      safe_eval_expression (.str s) = Option.none) ∧
    safe_eval_expression (.str "100*9") = some 900 ∧
    safe_eval_expression (.str "100*9; DROP") = Option.none ∧
    safe_eval_expression (.str "8/0") = Option.none := by
  refine ⟨rfl, ?_, ?_, ?_, by with_unfolding_all decide, by with_unfolding_all decide,
    by with_unfolding_all decide⟩
  · intro h
    simp only [safe_eval_expression]
    rw [if_pos h]
  · intro hf ha
    simp only [safe_eval_expression]
    by_cases h : prepExpr s = "" ∨ pyLower (prepExpr s) ∈ ["nan", "none", "", "-"]
    · rw [if_pos h]
    · rw [if_neg h, hf, ha]
      rfl
  · intro hf he
    simp only [safe_eval_expression]
    by_cases h : prepExpr s = "" ∨ pyLower (prepExpr s) ∈ ["nan", "none", "", "-"]
    · rw [if_pos h]
    · rw [if_neg h, hf]
      by_cases ha : allowListed (prepExpr s)
      · simp only [ha, if_true]
        exact he
      · simp only [Bool.not_eq_true] at ha
        rw [ha]
        rfl

/-- C5 witness: `"100*9; DROP"` fails the numeric parse and the
allow-list, so the amended rule applies and yields not-ok. -/
theorem claim_c5_evaluator_witness :
    safe_eval_expression (.str "100*9; DROP") = Option.none :=
  (claim_c5_evaluator "100*9; DROP").2.2.1 (by with_unfolding_all decide) (by decide)

/-- C6: in stream mode the current box starts empty, a row matching a
box-marker pattern updates it and is consumed (no data record), and
surviving data rows are tagged with the current box.  The claim's grid
(parsed with no header row above it, part column 0, quantity column 1)
yields exactly the two records for `1001` with boxes `1号箱` and
`2号箱`; merging the two labels gives `"1号箱, 2号箱"`; and without a
leading marker the first record's box is empty. -/
theorem claim_c6_stream_parse :
    parse_generic_list
        [[.str "第1箱"], [.str "1001", .num 5], [.str "第2箱"], [.str "1001", .num 3]]
        ⟨-1, 0, 1, Option.none, Option.none, Option.none, true⟩ =
      ⟨[⟨"1001", 5, "1号箱", 2⟩, ⟨"1001", 3, "2号箱", 4⟩], 2, 4⟩ ∧
    merge_box_numbers id ["1号箱", "2号箱"] = "1号箱, 2号箱" ∧
    parse_generic_list [[.str "1001", .num 5], [.str "第2箱"], [.str "1001", .num 3]]
        ⟨-1, 0, 1, Option.none, Option.none, Option.none, true⟩ =
      ⟨[⟨"1001", 5, "", 1⟩, ⟨"1001", 3, "2号箱", 3⟩], 1, 3⟩ := by
  refine ⟨?_, by with_unfolding_all decide, ?_⟩
  · have s0 : streamStep ⟨-1, 0, 1, Option.none, Option.none, Option.none, true⟩
        ([], 0, "") (0, [CellValue.str "第1箱"]) = ([], 1, "1号箱") := by
      decide
    have s1 : streamStep ⟨-1, 0, 1, Option.none, Option.none, Option.none, true⟩
        ([], 1, "1号箱") (1, [CellValue.str "1001", CellValue.num 5]) =
        ([⟨"1001", 5, "1号箱", 2⟩], 1, "1号箱") := by
      decide
    have s2 : streamStep ⟨-1, 0, 1, Option.none, Option.none, Option.none, true⟩
        ([⟨"1001", 5, "1号箱", 2⟩], 1, "1号箱") (2, [CellValue.str "第2箱"]) =
        ([⟨"1001", 5, "1号箱", 2⟩], 2, "2号箱") := by
      decide
    have s3 : streamStep ⟨-1, 0, 1, Option.none, Option.none, Option.none, true⟩
        ([⟨"1001", 5, "1号箱", 2⟩], 2, "2号箱") (3, [CellValue.str "1001", CellValue.num 3]) =
        ([⟨"1001", 5, "1号箱", 2⟩, ⟨"1001", 3, "2号箱", 4⟩], 2, "2号箱") := by
      decide
    simp only [parse_generic_list, parseStream, if_true]
    norm_num [parseStreamGo, s0, s1, s2, s3]
  · have s0 : streamStep ⟨-1, 0, 1, Option.none, Option.none, Option.none, true⟩
        ([], 0, "") (0, [CellValue.str "1001", CellValue.num 5]) =
        ([⟨"1001", 5, "", 1⟩], 0, "") := by
      decide
    have s1 : streamStep ⟨-1, 0, 1, Option.none, Option.none, Option.none, true⟩
        ([⟨"1001", 5, "", 1⟩], 0, "") (1, [CellValue.str "第2箱"]) =
        ([⟨"1001", 5, "", 1⟩], 1, "2号箱") := by
      decide
    have s2 : streamStep ⟨-1, 0, 1, Option.none, Option.none, Option.none, true⟩
        ([⟨"1001", 5, "", 1⟩], 1, "2号箱") (2, [CellValue.str "1001", CellValue.num 3]) =
        ([⟨"1001", 5, "", 1⟩, ⟨"1001", 3, "2号箱", 3⟩], 1, "2号箱") := by
      decide
    simp only [parse_generic_list, parseStream, if_true]
    norm_num [parseStreamGo, s0, s1, s2]

/-- Tail-recursive bounded universal check (kernel-friendly: the
recursive call is in tail position after the conjunct reduces). -/
def ballUpTo (f : ℕ → Bool) : ℕ → Bool
  | 0 => true
  | n + 1 => f n && ballUpTo f n

theorem ballUpTo_eq_true {f : ℕ → Bool} :
    ∀ {n : ℕ}, ballUpTo f n = true → ∀ m, m < n → f m = true := by
  intro n
  induction n with
  | zero => intro _ m hm; exact absurd hm (Nat.not_lt_zero m)
  | succ k ih =>
      intro h m hm
      rw [ballUpTo, Bool.and_eq_true] at h
      rcases Nat.lt_succ_iff_lt_or_eq.1 hm with h' | rfl
      · exact ih h.2 m h'
      · exact h.1

/-- C9 counterexample: the standard writing of 2000 is `二千`, but the
converter returns 1000: the accumulator only special-cases the
multipliers 10 and 100, so 千 falls into the digit branch
(`temp := 1000`) and the leading digit 二 is overwritten. -/
theorem claim_c9_counterexample :
    chineseCanonical 2000 = "二千" ∧
    chinese_to_arabic "二千" = some 1000 ∧
    (some 1000 : Option ℕ) ≠ some 2000 := by
  refine ⟨by decide, by decide, by decide⟩

/-- C9 (amended): the single-pass digit/multiplier accumulator is
correct for the magnitudes 十 and 百 only: for every n in 1…999 whose
standard writing needs no 零 (no interior zero), and every well-formed
writing of n over 一–九, 十, 百 (standard positional form or teens
form), the converter returns n.  千 is present in the digit map but is
mishandled (see the counterexample). -/
theorem claim_c9_chinese_numerals (n : ℕ) (s : String) (h1 : 0 < n) (h2 : n < 1000)
    (h3 : ¬ hasInteriorZero n) (hwf : wellFormedNumeral s n) :
    chinese_to_arabic s = some n := by
  have key : ballUpTo (fun m =>
      decide (0 < m → ¬ hasInteriorZero m →
        chinese_to_arabic (chineseCanonical m) = some m ∧
          (10 ≤ m → m ≤ 19 → chinese_to_arabic (chineseTeen m) = some m))) 1000 = true := by
    decide
  have hk := ballUpTo_eq_true key n h2
  have hk' := of_decide_eq_true hk
  rcases hwf with rfl | ⟨h10, h19, rfl⟩
  · exact (hk' h1 h3).1
  · exact (hk' h1 h3).2 h10 h19

/-- C9 witness: `二十三` converts to 23. -/
theorem claim_c9_chinese_numerals_witness :
    chinese_to_arabic (chineseCanonical 23) = some 23 :=
  claim_c9_chinese_numerals 23 (chineseCanonical 23) (by decide) (by decide) (by decide)
    (Or.inl rfl)

/-! ### C10: filter invariance lemmas -/

theorem lookupGet_filter_empty (items : List ListItem) (p : String) :
    lookupGet (items.filter (fun i => clean_part_number i.part_id != "")) p =
      lookupGet items p := by
  unfold lookupGet
  by_cases hp : p = ""
  · rw [if_pos hp, if_pos hp]
  · rw [if_neg hp, if_neg hp, List.filter_filter]
    refine List.filter_congr ?_
    intro i _
    by_cases hc : clean_part_number i.part_id = p
    · simp [hc, hp]
    · simp [hc]

theorem matchedItemsOf_filter_empty (b : BOMItem) (items : List ListItem) :
    matchedItemsOf b (items.filter (fun i => clean_part_number i.part_id != "")) =
      matchedItemsOf b items := by
  rw [matchedItemsOf_eq_flatMap, matchedItemsOf_eq_flatMap]
  exact congrArg _ (funext fun pid => lookupGet_filter_empty items pid)

theorem matchedSubIdsOf_filter_empty (b : BOMItem) (items : List ListItem) :
    matchedSubIdsOf b (items.filter (fun i => clean_part_number i.part_id != "")) =
      matchedSubIdsOf b items := by
  unfold matchedSubIdsOf
  simp only [lookupGet_filter_empty]

theorem matchedListIdsOf_filter_empty (b : BOMItem) (items : List ListItem) :
    matchedListIdsOf b (items.filter (fun i => clean_part_number i.part_id != "")) =
      matchedListIdsOf b items := by
  unfold matchedListIdsOf
  simp only [lookupGet_filter_empty]

theorem match_bom_item_filter_empty (σ : List String → List String) (b : BOMItem)
    (items : List ListItem) (wo : String) :
    match_bom_item σ b (items.filter (fun i => clean_part_number i.part_id != "")) wo =
      match_bom_item σ b items wo := by
  unfold match_bom_item mbiStatus mbiRemarks
  simp only [matchedItemsOf_filter_empty, matchedSubIdsOf_filter_empty,
    matchedListIdsOf_filter_empty]

theorem unmatchedKeys_filter_empty (items : List ListItem) (bomAll : List String) :
    unmatchedKeys (items.filter (fun i => clean_part_number i.part_id != "")) bomAll =
      unmatchedKeys items bomAll := by
  unfold unmatchedKeys
  suffices h : ∀ acc : List String,
      (items.filter (fun i => clean_part_number i.part_id != "")).foldl
        (fun acc i =>
          let p := clean_part_number i.part_id
          if p ≠ "" ∧ p ∉ bomAll ∧ p ∉ acc then acc ++ [p] else acc) acc =
      items.foldl
        (fun acc i =>
          let p := clean_part_number i.part_id
          if p ≠ "" ∧ p ∉ bomAll ∧ p ∉ acc then acc ++ [p] else acc) acc from h []
  induction items with
  | nil => intro acc; rfl
  | cons x xs ih =>
      intro acc
      rw [List.filter_cons]
      by_cases hx : clean_part_number x.part_id = ""
      · have : (clean_part_number x.part_id != "") = false := by simp [hx]
        rw [this]
        simp only [List.foldl_cons]
        have hcond : ¬ (clean_part_number x.part_id ≠ "" ∧
            clean_part_number x.part_id ∉ bomAll ∧ clean_part_number x.part_id ∉ acc) := by
          intro hc
          exact hc.1 hx
        rw [if_neg hcond]
        exact ih acc
      · have : (clean_part_number x.part_id != "") = true := by simp [hx]
        rw [this]
        simp only [if_true, List.foldl_cons]
        exact ih _

theorem find_unmatched_filter_empty (items : List ListItem) (bomAll : List String)
    (wo : String) :
    find_unmatched_list_items (items.filter (fun i => clean_part_number i.part_id != ""))
        bomAll wo =
      find_unmatched_list_items items bomAll wo := by
  unfold find_unmatched_list_items
  rw [unmatchedKeys_filter_empty]
  refine List.map_congr_left ?_
  intro p hp
  have hpne : p ≠ "" := (mem_unmatchedKeys.1 hp).1
  have hgrp : (items.filter (fun i => clean_part_number i.part_id != "")).filter
      (fun i => clean_part_number i.part_id == p) =
      items.filter (fun i => clean_part_number i.part_id == p) := by
    rw [List.filter_filter]
    refine List.filter_congr ?_
    intro i _
    by_cases hc : clean_part_number i.part_id = p
    · simp [hc, hpne]
    · simp [hc]
  rw [hgrp]

/-- C10: a checklist item whose part id cleans to the empty string is
invisible to the engine: deleting all such items leaves the full result
list unchanged (so the item contributes to no record's actual quantity,
box sources, matched substitutes, or `NG (BOM无)` grouping), and the
item belongs to no output record's provenance. -/
theorem claim_c10_empty_ids_excluded (bom : List BOMItem) (items : List ListItem)
    (wo : String) :
    allResults id bom (items.filter (fun i => clean_part_number i.part_id != "")) wo =
      allResults id bom items wo ∧
    ∀ i ∈ items, clean_part_number i.part_id = "" →
      ∀ prov ∈ provenances bom items, i ∉ prov := by
  constructor
  · unfold allResults
    rw [find_unmatched_filter_empty]
    refine congrArg (· ++ _) ?_
    refine List.map_congr_left ?_
    intro b _
    rw [match_bom_item_filter_empty]
  · intro i _ hcl prov hprov hmem
    rcases List.mem_append.1 hprov with h | h
    · rcases List.mem_map.1 h with ⟨b, _, rfl⟩
      rcases mem_matchedItemsOf.1 hmem with ⟨pid, _, hne, _, hc⟩
      exact hne (hc ▸ hcl)
    · rcases List.mem_map.1 h with ⟨p, hp, rfl⟩
      have hpne : p ≠ "" := (mem_unmatchedKeys.1 hp).1
      rcases List.mem_filter.1 hmem with ⟨-, hc⟩
      rw [beq_iff_eq] at hc
      exact hpne (hc ▸ hcl)

/-- C10 witness: the empty-cleaning item is in none of the concrete
provenances. -/
theorem claim_c10_empty_ids_excluded_witness :
    (⟨"", 2, "", 0⟩ : ListItem) ∉
      matchedItemsOf ⟨"1001", 1, [], "", 0⟩ [⟨"1001", 1, "", 0⟩, ⟨"", 2, "", 0⟩] :=
  (claim_c10_empty_ids_excluded [⟨"1001", 1, [], "", 0⟩]
      [⟨"1001", 1, "", 0⟩, ⟨"", 2, "", 0⟩] "").2
    ⟨"", 2, "", 0⟩ (by decide) (by decide)
    (matchedItemsOf ⟨"1001", 1, [], "", 0⟩ [⟨"1001", 1, "", 0⟩, ⟨"", 2, "", 0⟩])
    (by decide)

/-! ### C4: determinism under set-iteration order -/

instance : IsTrans String boxKeyLe := by
  refine ⟨fun a b c hab hbc => ?_⟩
  unfold boxKeyLe at *
  rcases hab with h1 | ⟨h1, h1'⟩ <;> rcases hbc with h2 | ⟨h2, h2'⟩
  · exact Or.inl (h1.trans h2)
  · exact Or.inl (h2 ▸ h1)
  · exact Or.inl (h1 ▸ h2)
  · exact Or.inr ⟨h1.trans h2, le_trans h1' h2'⟩

instance : IsTotal String boxKeyLe := by
  refine ⟨fun a b => ?_⟩
  unfold boxKeyLe
  rcases Nat.lt_trichotomy a.length b.length with h | h | h
  · exact Or.inl (Or.inl h)
  · rcases le_total a b with h' | h'
    · exact Or.inl (Or.inr ⟨h, h'⟩)
    · exact Or.inr (Or.inr ⟨h.symm, h'⟩)
  · exact Or.inr (Or.inl h)

instance : IsAntisymm String boxKeyLe := by
  refine ⟨fun a b hab hba => ?_⟩
  unfold boxKeyLe at *
  rcases hab with h1 | ⟨h1, h1'⟩ <;> rcases hba with h2 | ⟨h2, h2'⟩
  · exact absurd (h1.trans h2) (lt_irrefl _)
  · exact absurd h1 (h2 ▸ lt_irrefl _)
  · exact absurd h2 (h1 ▸ lt_irrefl _)
  · exact le_antisymm h1' h2'

/-- Two permutations of the same list have the same insertion sort
(sortedness plus antisymmetry pin the result). -/
theorem insertionSort_eq_of_perm {α : Type} (r : α → α → Prop) [DecidableRel r]
    [IsAntisymm α r] [IsTotal α r] [IsTrans α r] {l₁ l₂ : List α}
    (h : List.Perm l₁ l₂) : List.insertionSort r l₁ = List.insertionSort r l₂ :=
  List.eq_of_perm_of_sorted
    ((List.perm_insertionSort r l₁).trans (h.trans (List.perm_insertionSort r l₂).symm))
    (List.sorted_insertionSort r l₁) (List.sorted_insertionSort r l₂)

theorem pySortStr_eq_of_perm {l₁ l₂ : List String} (h : List.Perm l₁ l₂) :
    pySortStr l₁ = pySortStr l₂ :=
  insertionSort_eq_of_perm _ h

theorem merge_box_numbers_perm (σ₁ σ₂ : List String → List String)
    (h₁ : ∀ l, List.Perm (σ₁ l) l) (h₂ : ∀ l, List.Perm (σ₂ l) l) (bl : List String) :
    merge_box_numbers σ₁ bl = merge_box_numbers σ₂ bl := by
  unfold merge_box_numbers
  by_cases hb : bl = []
  · rw [if_pos hb, if_pos hb]
  · rw [if_neg hb, if_neg hb,
      insertionSort_eq_of_perm boxKeyLe ((h₁ _).trans (h₂ _).symm)]

theorem mbiRemarks_perm (σ₁ σ₂ : List String → List String)
    (h₁ : ∀ l, List.Perm (σ₁ l) l) (h₂ : ∀ l, List.Perm (σ₂ l) l) (b : BOMItem)
    (items : List ListItem) : mbiRemarks σ₁ b items = mbiRemarks σ₂ b items := by
  unfold mbiRemarks
  rw [pySortStr_eq_of_perm ((h₁ (matchedSubIdsOf b items)).trans
    (h₂ (matchedSubIdsOf b items)).symm)]

theorem rowOf_match_perm (σ₁ σ₂ : List String → List String)
    (h₁ : ∀ l, List.Perm (σ₁ l) l) (h₂ : ∀ l, List.Perm (σ₂ l) l) (b : BOMItem)
    (items : List ListItem) (wo : String) :
    rowOf σ₁ (match_bom_item σ₁ b items wo).compare_result =
      rowOf σ₂ (match_bom_item σ₂ b items wo).compare_result := by
  unfold rowOf match_bom_item
  rw [mbiRemarks_perm σ₁ σ₂ h₁ h₂, merge_box_numbers_perm σ₁ σ₂ h₁ h₂]

theorem rowOf_perm (σ₁ σ₂ : List String → List String)
    (h₁ : ∀ l, List.Perm (σ₁ l) l) (h₂ : ∀ l, List.Perm (σ₂ l) l) (r : CompareResult) :
    rowOf σ₁ r = rowOf σ₂ r := by
  unfold rowOf
  rw [merge_box_numbers_perm σ₁ σ₂ h₁ h₂]

/-- C4: the displayed rows of `compare_bom_and_list` do not depend on
the iteration order of the Python sets involved: for any two
enumeration orders (arbitrary permutations, as produced by hash-seed
randomisation) the engine renders byte-identical rows, because every
set is explicitly sorted (`sorted(matched_sub_ids)`, the
`(len, lexical)` sort of `merge_box_numbers`) before being joined into
a display string.  In particular two runs on identical inputs produce
identical output. -/
theorem claim_c4_determinism (σ₁ σ₂ : List String → List String)
    (h₁ : ∀ l, List.Perm (σ₁ l) l) (h₂ : ∀ l, List.Perm (σ₂ l) l) (bom : List BOMItem)
    (items : List ListItem) (wo : String) :
    compareRows σ₁ bom items wo = compareRows σ₂ bom items wo := by
  unfold compareRows allResults
  rw [List.map_append, List.map_append, List.map_map, List.map_map]
  refine congrArg₂ (· ++ ·) ?_ ?_
  · refine List.map_congr_left ?_
    intro b _
    exact rowOf_match_perm σ₁ σ₂ h₁ h₂ b items wo
  · refine List.map_congr_left ?_
    intro r _
    exact rowOf_perm σ₁ σ₂ h₁ h₂ r

/-- C4 witness: the identity order and the reversed order give the same
rows on a run that exercises substitutes and boxes. -/
theorem claim_c4_determinism_witness :
    compareRows id [⟨"1001", 1, ["2002", "3003"], "n", 0⟩]
        [⟨"2002", 1, "2号箱", 0⟩, ⟨"3003", 0, "1号箱", 0⟩] "WO" =
      compareRows (fun l => l.reverse) [⟨"1001", 1, ["2002", "3003"], "n", 0⟩]
        [⟨"2002", 1, "2号箱", 0⟩, ⟨"3003", 0, "1号箱", 0⟩] "WO" :=
  claim_c4_determinism id (fun l => l.reverse) (fun l => List.Perm.refl l)
    (fun l => List.reverse_perm l) [⟨"1001", 1, ["2002", "3003"], "n", 0⟩]
    [⟨"2002", 1, "2号箱", 0⟩, ⟨"3003", 0, "1号箱", 0⟩] "WO"

/-! ### C8: row admission rules of the parsers -/

/-- The checks shared by both parsers that precede the quantity check:
not an empty row, long enough for the referenced columns, nonempty
cleaned part id. -/
def rowPre (cfg : MappingConfig) (row : List CellValue) : Prop :=
  is_empty_row row = false ∧ max cfg.part_col cfg.qty_col < row.length ∧
    clean_part_number_cell (row.getD cfg.part_col CellValue.none) ≠ ""

instance (cfg : MappingConfig) (row : List CellValue) : Decidable (rowPre cfg row) := by
  unfold rowPre; infer_instance

theorem bomRowItem_pos {cfg : MappingConfig} {rn : ℤ} {row : List CellValue} {it : BOMItem}
    (h : bomRowItem cfg rn row = some it) : 0 < it.quantity := by
  simp only [bomRowItem] at h
  by_cases h1 : is_empty_row row = true
  · rw [if_pos h1] at h; exact absurd h (by simp)
  rw [if_neg h1] at h
  by_cases h2 : row.length ≤ max cfg.part_col cfg.qty_col
  · rw [if_pos h2] at h; exact absurd h (by simp)
  rw [if_neg h2] at h
  by_cases h3 : clean_part_number_cell (row.getD cfg.part_col CellValue.none) = ""
  · rw [if_pos h3] at h; exact absurd h (by simp)
  rw [if_neg h3] at h
  cases heq : safe_eval_expression (row.getD cfg.qty_col CellValue.none) with
  | none => rw [heq] at h; exact absurd h (by simp)
  | some q =>
      rw [heq] at h
      simp only [] at h
      by_cases hq : q ≤ 0
      · rw [if_pos hq] at h; exact absurd h (by simp)
      · rw [if_neg hq] at h
        injection h with h'
        rw [← h']
        exact not_le.1 hq

theorem parseRowsBOM_count (cfg : MappingConfig) :
    ∀ (rows : List (List CellValue)) (rn : ℤ),
      (parseRowsBOM cfg rn rows).1.length + (parseRowsBOM cfg rn rows).2 = rows.length := by
  intro rows
  induction rows with
  | nil => intro rn; rfl
  | cons row rest ih =>
      intro rn
      have hr := ih (rn + 1)
      simp only [parseRowsBOM]
      cases h : bomRowItem cfg rn row with
      | none => simp only [h, List.length_cons]; omega
      | some it => simp only [h, List.length_cons]; omega

theorem parseRowsStd_count (cfg : MappingConfig) :
    ∀ (rows : List (List CellValue)) (rn : ℤ),
      (parseRowsStd cfg rn rows).1.length + (parseRowsStd cfg rn rows).2 = rows.length := by
  intro rows
  induction rows with
  | nil => intro rn; rfl
  | cons row rest ih =>
      intro rn
      have hr := ih (rn + 1)
      simp only [parseRowsStd]
      cases h : stdRowItem cfg rn row with
      | none => simp only [h, List.length_cons]; omega
      | some it => simp only [h, List.length_cons]; omega

theorem parseRowsBOM_pos (cfg : MappingConfig) :
    ∀ (rows : List (List CellValue)) (rn : ℤ) (b : BOMItem),
      b ∈ (parseRowsBOM cfg rn rows).1 → 0 < b.quantity := by
  intro rows
  induction rows with
  | nil => intro rn b hb; exact absurd hb (List.not_mem_nil b)
  | cons row rest ih =>
      intro rn b hb
      simp only [parseRowsBOM] at hb
      cases h : bomRowItem cfg rn row with
      | none =>
          rw [h] at hb
          exact ih (rn + 1) b hb
      | some it =>
          rw [h] at hb
          rcases List.mem_cons.1 hb with rfl | hb'
          · exact bomRowItem_pos h
          · exact ih (rn + 1) b hb'

/-- C8: BOM parsing discards every row whose evaluated quantity is ≤ 0
(the row is skipped and produces no `BOMItem`, so all parsed BOM items
have positive quantity), while standard-mode checklist parsing keeps
zero-quantity rows and, among the quantity checks, skips only rows
whose quantity evaluation fails; in both parsers every data row is
either parsed or counted as skipped. -/
theorem claim_c8_quantity_rules (raw : List (List CellValue)) (cfg : MappingConfig)
    (rn : ℤ) (row : List CellValue) :
    (∀ b ∈ (parse_bom raw cfg).items, 0 < b.quantity) ∧
    (parse_bom raw cfg).items.length + (parse_bom raw cfg).skipped =
      (parse_bom raw cfg).total_rows ∧
    (parseStandard raw cfg).items.length + (parseStandard raw cfg).skipped =
      (parseStandard raw cfg).total_rows ∧
    (bomRowItem cfg rn row = Option.none ↔
      ¬ rowPre cfg row ∨
        safe_eval_expression (row.getD cfg.qty_col CellValue.none) = Option.none ∨
        ∃ q, safe_eval_expression (row.getD cfg.qty_col CellValue.none) = some q ∧ q ≤ 0) ∧
    (stdRowItem cfg rn row = Option.none ↔
      ¬ rowPre cfg row ∨
        safe_eval_expression (row.getD cfg.qty_col CellValue.none) = Option.none) ∧
    (rowPre cfg row → safe_eval_expression (row.getD cfg.qty_col CellValue.none) = some 0 →
      ∃ it, stdRowItem cfg rn row = some it ∧ it.quantity = 0 ∧
        it.part_id = clean_part_number_cell (row.getD cfg.part_col CellValue.none)) := by
  refine ⟨?_, ?_, ?_, ?_, ?_, ?_⟩
  · intro b hb
    exact parseRowsBOM_pos cfg _ _ b hb
  · exact parseRowsBOM_count cfg _ _
  · exact parseRowsStd_count cfg _ _
  · by_cases h1 : is_empty_row row = true
    · refine iff_of_true (by simp only [bomRowItem]; rw [if_pos h1]) (Or.inl ?_)
      rintro ⟨he, -, -⟩
      rw [h1] at he
      cases he
    by_cases h2 : row.length ≤ max cfg.part_col cfg.qty_col
    · refine iff_of_true (by simp only [bomRowItem]; rw [if_neg h1, if_pos h2]) (Or.inl ?_)
      rintro ⟨-, hlen, -⟩
      exact absurd hlen (not_lt.2 h2)
    by_cases h3 : clean_part_number_cell (row.getD cfg.part_col CellValue.none) = ""
    · refine iff_of_true
        (by simp only [bomRowItem]; rw [if_neg h1, if_neg h2, if_pos h3]) (Or.inl ?_)
      rintro ⟨-, -, hne⟩
      exact hne h3
    cases heq : safe_eval_expression (row.getD cfg.qty_col CellValue.none) with
    | none =>
        refine iff_of_true ?_ (Or.inr (Or.inl rfl))
        simp only [bomRowItem]
        rw [if_neg h1, if_neg h2, if_neg h3, heq]
    | some q =>
        by_cases hq : q ≤ 0
        · refine iff_of_true ?_ (Or.inr (Or.inr ⟨q, rfl, hq⟩))
          simp only [bomRowItem]
          rw [if_neg h1, if_neg h2, if_neg h3, heq]
          exact if_pos hq
        · refine iff_of_false ?_ ?_
          · intro hc
            simp only [bomRowItem] at hc
            rw [if_neg h1, if_neg h2, if_neg h3, heq] at hc
            simp [hq] at hc
          · have h1' : is_empty_row row = false := by simpa using h1
            rintro (hnp | hnone | ⟨q', hq', hle⟩)
            · exact hnp ⟨h1', not_le.1 h2, h3⟩
            · exact Option.noConfusion hnone
            · injection hq' with hq''
              refine hq ?_
              rw [hq'']
              exact hle
  · by_cases h1 : is_empty_row row = true
    · refine iff_of_true (by simp only [stdRowItem]; rw [if_pos h1]) (Or.inl ?_)
      rintro ⟨he, -, -⟩
      rw [h1] at he
      cases he
    by_cases h2 : row.length ≤ max cfg.part_col cfg.qty_col
    · refine iff_of_true (by simp only [stdRowItem]; rw [if_neg h1, if_pos h2]) (Or.inl ?_)
      rintro ⟨-, hlen, -⟩
      exact absurd hlen (not_lt.2 h2)
    by_cases h3 : clean_part_number_cell (row.getD cfg.part_col CellValue.none) = ""
    · refine iff_of_true
        (by simp only [stdRowItem]; rw [if_neg h1, if_neg h2, if_pos h3]) (Or.inl ?_)
      rintro ⟨-, -, hne⟩
      exact hne h3
    cases heq : safe_eval_expression (row.getD cfg.qty_col CellValue.none) with
    | none =>
        refine iff_of_true ?_ (Or.inr rfl)
        simp only [stdRowItem]
        rw [if_neg h1, if_neg h2, if_neg h3, heq]
    | some q =>
        refine iff_of_false ?_ ?_
        · intro hc
          simp only [stdRowItem] at hc
          rw [if_neg h1, if_neg h2, if_neg h3, heq] at hc
          simp at hc
        · have h1' : is_empty_row row = false := by simpa using h1
          rintro (hnp | hnone)
          · exact hnp ⟨h1', not_le.1 h2, h3⟩
          · exact Option.noConfusion hnone
  · rintro ⟨h1', hlen, h3⟩ heq
    have h1 : ¬ is_empty_row row = true := by simp [h1']
    have hstep : stdRowItem cfg rn row = some
        { part_id := clean_part_number_cell (row.getD cfg.part_col CellValue.none)
          quantity := 0
          box_number :=
            match cfg.box_col with
            | some bc =>
                if bc < row.length then normalize_box_number (row.getD bc CellValue.none)
                else ""
            | Option.none => ""
          row_index := rn } := by
      simp only [stdRowItem]
      rw [if_neg h1, if_neg (not_le.2 hlen), if_neg h3, heq]
    exact ⟨_, hstep, rfl, rfl⟩

/-- C8 witness: a standard checklist row with quantity 0 is kept. -/
theorem claim_c8_quantity_rules_witness :
    ∃ it, stdRowItem ⟨-1, 0, 1, Option.none, Option.none, Option.none, false⟩ 1
        [CellValue.str "1001", CellValue.num 0] = some it ∧ it.quantity = 0 ∧
      it.part_id = clean_part_number_cell
        ([CellValue.str "1001", CellValue.num 0].getD 0 CellValue.none) :=
  (claim_c8_quantity_rules [] ⟨-1, 0, 1, Option.none, Option.none, Option.none, false⟩ 1
      [CellValue.str "1001", CellValue.num 0]).2.2.2.2.2
    (by refine ⟨by decide, by decide, by decide⟩) rfl

/-! ### C7: the header locator -/

theorem calculate_header_score_nil_keywords (row : List CellValue) :
    calculate_header_score row [] = 0 := by
  unfold calculate_header_score
  split_ifs <;> rfl

/-- Invariant of the best-row scan of `smart_find_header_row` over the
first `n` candidate rows: a `none` state means every eligible row so far
scored 0; a `some i` state is the earliest row attaining the running
maximum, which is positive. -/
theorem headerFold_spec (data : List (List CellValue)) (keywords : List String) (n : ℕ) :
    ((((List.range n).foldl (headerStep data keywords) (Option.none, 0)).1 = Option.none →
      ((List.range n).foldl (headerStep data keywords) (Option.none, 0)).2 = 0 ∧
        ∀ j, j < n → eligibleRow (data.getD j []) →
          calculate_header_score (data.getD j []) keywords = 0) ∧
    (∀ i, ((List.range n).foldl (headerStep data keywords) (Option.none, 0)).1 = some i →
      i < n ∧ eligibleRow (data.getD i []) ∧
      ((List.range n).foldl (headerStep data keywords) (Option.none, 0)).2 =
        calculate_header_score (data.getD i []) keywords ∧
      0 < ((List.range n).foldl (headerStep data keywords) (Option.none, 0)).2 ∧
      (∀ j, j < n → eligibleRow (data.getD j []) →
        calculate_header_score (data.getD j []) keywords ≤
          ((List.range n).foldl (headerStep data keywords) (Option.none, 0)).2) ∧
      (∀ j, j < i → eligibleRow (data.getD j []) →
        calculate_header_score (data.getD j []) keywords <
          ((List.range n).foldl (headerStep data keywords) (Option.none, 0)).2))) := by
  induction n with
  | zero =>
      refine ⟨fun _ => ⟨rfl, fun j hj _ => absurd hj (Nat.not_lt_zero j)⟩, fun i hi => ?_⟩
      exact Option.noConfusion hi
  | succ k ih =>
      obtain ⟨ihn, ihs⟩ := ih
      simp only [List.range_succ, List.foldl_append, List.foldl_cons, List.foldl_nil]
      set st := (List.range k).foldl (headerStep data keywords) (Option.none, 0) with hstdef
      simp only [headerStep]
      by_cases he : nonEmptyCellCount (data.getD k []) < 2
      · rw [if_pos he]
        constructor
        · intro h0
          obtain ⟨hz, hall⟩ := ihn h0
          refine ⟨hz, fun j hj hel => ?_⟩
          rcases Nat.lt_succ_iff_lt_or_eq.1 hj with hj' | rfl
          · exact hall j hj' hel
          · unfold eligibleRow at hel; omega
        · intro i hi
          obtain ⟨hik, hel, hsc, hpos, hub, hlb⟩ := ihs i hi
          refine ⟨Nat.lt_succ_of_lt hik, hel, hsc, hpos, fun j hj hel' => ?_, hlb⟩
          rcases Nat.lt_succ_iff_lt_or_eq.1 hj with hj' | rfl
          · exact hub j hj' hel'
          · unfold eligibleRow at hel'; omega
      · rw [if_neg he]
        by_cases hlt : st.2 < calculate_header_score (data.getD k []) keywords
        · rw [if_pos hlt]
          constructor
          · intro h0
            exact Option.noConfusion h0
          · intro i hi
            have hik : k = i := Option.some.inj hi
            subst hik
            refine ⟨Nat.lt_succ_self k, Nat.le_of_not_lt he, rfl,
              Nat.lt_of_le_of_lt (Nat.zero_le st.2) hlt, fun j hj hel => ?_, fun j hj hel => ?_⟩
            · rcases Nat.lt_succ_iff_lt_or_eq.1 hj with hj' | rfl
              · cases hst1 : st.1 with
                | none =>
                    have h0 := (ihn hst1).2 j hj' hel
                    omega
                | some i' =>
                    have hub := (ihs i' hst1).2.2.2.2.1 j hj' hel
                    omega
              · exact Nat.le_refl _
            · cases hst1 : st.1 with
              | none =>
                  have h0 := (ihn hst1).2 j hj hel
                  omega
              | some i' =>
                  have hub := (ihs i' hst1).2.2.2.2.1 j hj hel
                  omega
        · rw [if_neg hlt]
          constructor
          · intro h0
            obtain ⟨hz, hall⟩ := ihn h0
            refine ⟨hz, fun j hj hel => ?_⟩
            rcases Nat.lt_succ_iff_lt_or_eq.1 hj with hj' | rfl
            · exact hall j hj' hel
            · omega
          · intro i hi
            obtain ⟨hik, hel, hsc, hpos, hub, hlb⟩ := ihs i hi
            refine ⟨Nat.lt_succ_of_lt hik, hel, hsc, hpos, fun j hj hel' => ?_, hlb⟩
            rcases Nat.lt_succ_iff_lt_or_eq.1 hj with hj' | rfl
            · exact hub j hj' hel'
            · exact Nat.le_of_not_lt hlt

/-- C7: the header locator scans the first `min data.length max_rows` rows,
skips rows with fewer than 2 non-empty cells, and returns the earliest row
of strictly highest keyword score provided that score reaches `min_score`;
otherwise it reports no header, in which case every eligible scanned row
scores below `min_score`. -/
theorem claim_c7_header_locator (data : List (List CellValue)) (keywords : List String)
    (max_rows min_score : ℕ) (hmin : 1 ≤ min_score) :
    (∀ i s, smart_find_header_row data keywords max_rows min_score = (some i, s) →
      i < min data.length max_rows ∧ eligibleRow (data.getD i []) ∧
      s = calculate_header_score (data.getD i []) keywords ∧ min_score ≤ s ∧
      (∀ j, j < min data.length max_rows → eligibleRow (data.getD j []) →
        calculate_header_score (data.getD j []) keywords ≤ s) ∧
      (∀ j, j < i → eligibleRow (data.getD j []) →
        calculate_header_score (data.getD j []) keywords < s)) ∧
    ((smart_find_header_row data keywords max_rows min_score).1 = Option.none →
      ∀ j, j < min data.length max_rows → eligibleRow (data.getD j []) →
        calculate_header_score (data.getD j []) keywords < min_score) := by
  obtain ⟨specn, specs⟩ := headerFold_spec data keywords (min data.length max_rows)
  constructor
  · intro i s h
    simp only [smart_find_header_row] at h
    by_cases hde : data = [] ∨ keywords = []
    · rw [if_pos hde] at h
      exact absurd (congrArg Prod.fst h) (by simp)
    · rw [if_neg hde] at h
      set st := (List.range (min data.length max_rows)).foldl
        (headerStep data keywords) (Option.none, 0) with hstdef
      by_cases hms : min_score ≤ st.2
      · rw [if_pos hms] at h
        have h1 : st.1 = some i := by rw [h]
        have h2 : st.2 = s := by rw [h]
        obtain ⟨hik, hel, hsc, _hpos, hub, hlb⟩ := specs i h1
        refine ⟨hik, hel, by omega, by omega, fun j hj hel' => ?_, fun j hj hel' => ?_⟩
        · have := hub j hj hel'
          omega
        · have := hlb j hj hel'
          omega
      · rw [if_neg hms] at h
        exact absurd (congrArg Prod.fst h) (by simp)
  · intro h0 j hj hel
    simp only [smart_find_header_row] at h0
    by_cases hde : data = [] ∨ keywords = []
    · rcases hde with hd | hk
      · rw [hd] at hj
        simp at hj
      · rw [hk, calculate_header_score_nil_keywords]
        omega
    · rw [if_neg hde] at h0
      set st := (List.range (min data.length max_rows)).foldl
        (headerStep data keywords) (Option.none, 0) with hstdef
      by_cases hms : min_score ≤ st.2
      · rw [if_pos hms] at h0
        have := (specn h0).2 j hj hel
        omega
      · cases hst1 : st.1 with
        | none =>
            have := (specn hst1).2 j hj hel
            omega
        | some i' =>
            have hub := (specs i' hst1).2.2.2.2.1 j hj hel
            omega

/-- A small grid for exercising the header locator: a one-cell title row,
a two-keyword row, then the full three-keyword header row. -/
def headerDemoGrid : List (List CellValue) :=
  [[CellValue.str "标题"],
   [CellValue.str "料号", CellValue.str "数量"],
   [CellValue.str "料号", CellValue.str "数量", CellValue.str "箱号"]]

/-- The keywords used with `headerDemoGrid`. -/
def headerDemoKeywords : List String := ["料号", "数量", "箱号"]

/-- C7 witness: on the demo grid the locator picks row 2 with score 3; it is
eligible, its score is maximal among scanned eligible rows, and row 1 scores
strictly lower. -/
theorem claim_c7_header_locator_witness :
    2 < min headerDemoGrid.length 20 ∧
    eligibleRow (headerDemoGrid.getD 2 []) ∧
    3 = calculate_header_score (headerDemoGrid.getD 2 []) headerDemoKeywords ∧
    2 ≤ 3 ∧
    calculate_header_score (headerDemoGrid.getD 1 []) headerDemoKeywords ≤ 3 ∧
    calculate_header_score (headerDemoGrid.getD 1 []) headerDemoKeywords < 3 :=
  have h := (claim_c7_header_locator headerDemoGrid headerDemoKeywords 20 2 (by decide)).1
    2 3 (by decide)
  ⟨h.1, h.2.1, h.2.2.1, h.2.2.2.1, h.2.2.2.2.1 1 (by decide) (by decide),
    h.2.2.2.2.2 1 (by decide) (by decide)⟩

end CKD
